import Mathlib

/-!
Shallow embedding of the debt-planning and IRR modules of the DutchBay EPC
model (`dutchbay_v13/finance/debt.py` and `dutchbay_v13/finance/irr.py`).
Python floats are modelled as exact rationals, Python `None` as `Option`,
and Python `int` as `ℤ` (with truncation and slicing semantics made
explicit).  Fallible behaviour in the sources is total (no exceptions are
raised on the modelled paths), so every embedded function is a plain
function.
-/

namespace DutchBay

/-- Python truthiness-based `x or d` for an optional float with a float
default: the result is `d` when `x` is `None` or `0.0`. -/
def pyOr (v : Option ℚ) (d : ℚ) : ℚ :=
  match v with
  | none => d
  | some x => if x = 0 then d else x

/-- Python truthiness-based `x or d` for an optional string with a string
default: the result is `d` when `x` is `None` or the empty string. -/
def pyOrStr (v : Option String) (d : String) : String :=
  match v with
  | none => d
  | some s => if s = "" then d else s

/-- Python `str.lower()` (character-wise, as for the ASCII strategy names
the source compares). -/
def pyLower (s : String) : String := ⟨s.data.map Char.toLower⟩

/-- Python `str.startswith(pre)`. -/
def pyStartswith (s pre : String) : Bool :=
  decide (s.data.take pre.data.length = pre.data)

/-- Python truthiness of an optional float: `None` and `0.0` are falsy. -/
def qTruthy (v : Option ℚ) : Bool :=
  match v with
  | none => false
  | some x => decide (x ≠ 0)

/-- Python `int(x)` applied to a float: truncation toward zero. -/
def pyInt (x : ℚ) : ℤ := if 0 ≤ x then ⌊x⌋ else ⌈x⌉

/-- Python list slicing `l[:n]` for an `int` bound `n` (a negative bound
counts from the end of the list). -/
def pySlice {α : Type} (n : ℤ) (l : List α) : List α :=
  if 0 ≤ n then l.take n.toNat else l.take (l.length - (-n).toNat)

/-- `Tranche` from debt.py: name, nominal annual rate, starting principal and
interest-only period (source field `years_io`, stored as a Python `int`). -/
structure Tranche where
  name : String
  rate : ℚ
  principal : ℚ
  years_io : ℤ
deriving DecidableEq

/-- `_pmt` from debt.py: the classic (positive) annuity payment.  The source
takes an `int` period count and is only called with a positive one, so the
embedding uses `ℕ`. -/
def pmt (rate : ℚ) (nper : ℕ) (pv : ℚ) : ℚ :=
  if rate = 0 then pv / nper
  else pv * (rate * (1 + rate) ^ nper) / ((1 + rate) ^ nper - 1)

/-- One `(interest, principal, total_service)` row of a per-tranche
schedule, as the Python code builds them. -/
structure DebtRow where
  interest : ℚ
  principal : ℚ
  service : ℚ
deriving DecidableEq

/-- The all-zero row (used where the aggregation loop reads past the end of
a tranche's schedule). -/
def zeroRow : DebtRow := ⟨0, 0, 0⟩

/-- The amortizing loop of `_annuity_schedule`: each year
`interest = bal * rate`, `principal = max 0 (pmt - interest)` and the
balance is clamped at `0`. -/
def annuityAmortRows (r A : ℚ) : ℕ → ℚ → List DebtRow
  | 0, _ => []
  | m + 1, bal =>
    ⟨bal * r, max 0 (A - bal * r), bal * r + max 0 (A - bal * r)⟩ ::
      annuityAmortRows r A m (max 0 (bal - max 0 (A - bal * r)))

/-- The balance entering amortizing year `k` of the `_annuity_schedule`
loop (with the source's clamps). -/
def annuityBal (r A pv : ℚ) : ℕ → ℚ
  | 0 => pv
  | k + 1 =>
    let b := annuityBal r A pv k
    max 0 (b - max 0 (A - b * r))

/-- `_annuity_schedule` from debt.py: `years_io` interest-only rows, then an
annuity amortization over `amort_years` years (none when `amort_years ≤ 0`);
the payment is computed from the balance after the interest-only period,
which the interest-only rows leave unchanged. -/
def annuitySchedule (tr : Tranche) (amort_years : ℤ) : List DebtRow :=
  let ioRows := List.replicate tr.years_io.toNat
    ⟨tr.principal * tr.rate, 0, tr.principal * tr.rate⟩
  if 0 < amort_years then
    ioRows ++ annuityAmortRows tr.rate (pmt tr.rate amort_years.toNat tr.principal)
      amort_years.toNat tr.principal
  else ioRows

/-- Geometric sum `1 + (1+r) + ⋯ + (1+r)^(k-1)`: the annuity factor. -/
def sgeom (r : ℚ) : ℕ → ℚ
  | 0 => 0
  | k + 1 => 1 + (1 + r) * sgeom r k

/-- The clamp-free balance recursion `b ↦ (1+r)·b − A`. -/
def idealBal (r A pv : ℚ) : ℕ → ℚ
  | 0 => pv
  | k + 1 => (1 + r) * idealBal r A pv k - A

/-- Clamp-free amortization rows: what the annuity loop computes when no
`max` clamp fires. -/
def idealRows (r A : ℚ) : ℕ → ℚ → List DebtRow
  | 0, _ => []
  | m + 1, bal =>
    ⟨bal * r, A - bal * r, bal * r + (A - bal * r)⟩ ::
      idealRows r A m ((1 + r) * bal - A)

/-! ### IRR / NPV (irr.py) -/

/-- `npv` from irr.py: the rate is clamped to `-0.999999` at or below
`-100%`, then `NPV(r) = Σ CF[t] / (1+r)^t`. -/
def npv (rate : ℚ) (cashflows : List ℚ) : ℚ :=
  let r := if rate ≤ -1 then -(999999 : ℚ) / 1000000 else rate
  (cashflows.enum.map (fun p => p.2 / (1 + r) ^ p.1)).sum

/-- Lower end of the bracketing domain of `_irr_local` (`-99.99%`). -/
def irrLo : ℚ := -(9999 : ℚ) / 10000

/-- Upper end of the bracketing domain of `_irr_local` (`+500%`). -/
def irrHi : ℚ := 5

/-- The bisection loop of `_irr_local` (200 iterations; returns the final
midpoint when the NPV tolerance is never met). -/
def irrBisect (cfs : List ℚ) : ℕ → ℚ → ℚ → ℚ → ℚ → ℚ
  | 0, lo, hi, _, _ => (lo + hi) / 2
  | n + 1, lo, hi, flo, fhi =>
    let mid := (lo + hi) / 2
    let fmid := npv mid cfs
    if |fmid| < 1 / 10000000000 then mid
    else if (flo < 0 ∧ 0 < fmid) ∨ (0 < flo ∧ fmid < 0) then
      irrBisect cfs n lo mid flo fmid
    else irrBisect cfs n mid hi fmid fhi

/-- `_irr_local` from irr.py: degenerate all-tiny series return `0`, and a
bracketed bisection on `npv` over `[irrLo, irrHi]` returns `none` when the
endpoint NPVs never change sign. -/
def irrLocal (cashflows : List ℚ) : Option ℚ :=
  if cashflows = [] then none
  else if cashflows.all (fun cf => |cf| < 1 / 1000000000000) then some 0
  else
    let flo := npv irrLo cashflows
    let fhi := npv irrHi cashflows
    if flo = 0 then some irrLo
    else if fhi = 0 then some irrHi
    else if (0 < flo ∧ 0 < fhi) ∨ (flo < 0 ∧ fhi < 0) then none
    else some (irrBisect cashflows 200 irrLo irrHi flo fhi)

/-! ### Sculpted schedule (debt.py `_sculpted_schedule`) -/

/-- The three-key tranche mapping `_solve_mix` builds, in the source's dict
insertion order `LKR`, `USD`, `DFI`. -/
structure TrMap (α : Type) where
  lkr : α
  usd : α
  dfi : α
deriving DecidableEq

namespace TrMap

def map {α β : Type} (f : α → β) (m : TrMap α) : TrMap β := ⟨f m.lkr, f m.usd, f m.dfi⟩

/-- `sum(obals.values())` in the source's key order. -/
def qsum (m : TrMap ℚ) : ℚ := m.lkr + m.usd + m.dfi

end TrMap

/-- `cfads[i] if i < len(cfads) else (cfads[-1] if cfads else 0.0)` — the
CFADS lookup with last-value fallback used by the sculpted loop and by the
DSCR aggregation. -/
def cfGet (cfads : List ℚ) (i : ℕ) : ℚ :=
  if i < cfads.length then cfads.getD i 0 else cfads.getLastD 0

/-- The per-tranche body of the sculpted amortizing loop: pro-rata principal
allocation capped at the outstanding balance, and the balance update clamped
at `0`.  Returns the schedule row and the new balance. -/
def sculptTranche (principal_total total_bal bal interest_k : ℚ) : DebtRow × ℚ :=
  let prorata := if 0 < total_bal then bal / total_bal else 0
  let principal_k := min bal (principal_total * prorata)
  (⟨interest_k, principal_k, interest_k + principal_k⟩, max 0 (bal - principal_k))

/-- One amortizing year of `_sculpted_schedule`: target total service
`max 0 (cf / dscr_target)`, interest from each tranche's current balance,
total principal clamped at `0`, then pro-rata allocation across the three
tranches (the source's `total_bal = sum(obals.values()) or 1.0`). -/
def sculptYear (trs : TrMap Tranche) (obals : TrMap ℚ) (cf dscr_target : ℚ) :
    TrMap DebtRow × TrMap ℚ :=
  let target_service := max 0 (cf / dscr_target)
  let iLkr := obals.lkr * trs.lkr.rate
  let iUsd := obals.usd * trs.usd.rate
  let iDfi := obals.dfi * trs.dfi.rate
  let principal_total := max 0 (target_service - (iLkr + iUsd + iDfi))
  let total_bal := pyOr (some obals.qsum) 1
  let pLkr := sculptTranche principal_total total_bal obals.lkr iLkr
  let pUsd := sculptTranche principal_total total_bal obals.usd iUsd
  let pDfi := sculptTranche principal_total total_bal obals.dfi iDfi
  (⟨pLkr.1, pUsd.1, pDfi.1⟩, ⟨pLkr.2, pUsd.2, pDfi.2⟩)

/-- The amortizing year loop of `_sculpted_schedule`, carrying `year_index`
and the balances. -/
def sculptLoop (trs : TrMap Tranche) (cfads : List ℚ) (dscr_target : ℚ) :
    ℕ → ℕ → TrMap ℚ → List (TrMap DebtRow)
  | 0, _, _ => []
  | m + 1, year_index, obals =>
    let step := sculptYear trs obals (cfGet cfads year_index) dscr_target
    step.1 :: sculptLoop trs cfads dscr_target m (year_index + 1) step.2

/-- `io_years = max(tr.years_io for tr in tranches.values())`. -/
def ioYears (trs : TrMap Tranche) : ℤ :=
  max (max trs.lkr.years_io trs.usd.years_io) trs.dfi.years_io

/-- The starting balances `obals = {k: tr.principal}`. -/
def startBals (trs : TrMap Tranche) : TrMap ℚ :=
  ⟨trs.lkr.principal, trs.usd.principal, trs.dfi.principal⟩

/-- `_sculpted_schedule` by year: `io_years` interest-only rows on the
starting balances (which the interest-only loop never updates), then
`amort_years` sculpted years starting at `year_index = io_years`. -/
def sculptedByYear (trs : TrMap Tranche) (amort_years : ℤ) (cfads : List ℚ)
    (dscr_target : ℚ) : List (TrMap DebtRow) :=
  let ioRow : TrMap DebtRow := trs.map (fun tr =>
    ⟨tr.principal * tr.rate, 0, tr.principal * tr.rate⟩)
  List.replicate (ioYears trs).toNat ioRow ++
    sculptLoop trs cfads dscr_target amort_years.toNat (ioYears trs).toNat (startBals trs)

/-- `_sculpted_schedule`'s returned per-tranche row lists. -/
def sculptedSchedule (trs : TrMap Tranche) (amort_years : ℤ) (cfads : List ℚ)
    (dscr_target : ℚ) : TrMap (List DebtRow) :=
  let byYear := sculptedByYear trs amort_years cfads dscr_target
  ⟨byYear.map (·.lkr), byYear.map (·.usd), byYear.map (·.dfi)⟩

/-- Iterate the sculpted year step `k` times from balances `obals`, the
first step using year index `yi`. -/
def sculptAdvance (trs : TrMap Tranche) (cfads : List ℚ) (dscr_target : ℚ)
    (yi : ℕ) (obals : TrMap ℚ) : ℕ → TrMap ℚ
  | 0 => obals
  | k + 1 =>
    (sculptYear trs (sculptAdvance trs cfads dscr_target yi obals k)
      (cfGet cfads (yi + k)) dscr_target).2

/-- The balance state entering sculpted amortizing year `k`. -/
def sculptStates (trs : TrMap Tranche) (cfads : List ℚ) (dscr_target : ℚ)
    (k : ℕ) : TrMap ℚ :=
  sculptAdvance trs cfads dscr_target (ioYears trs).toNat (startBals trs) k

/-! ### Configuration resolution and `apply_debt_layer` -/

/-- `_as_float(v, default)` on already-numeric optional values: `v` when
present, the default otherwise. -/
def asFloat (v d : Option ℚ) : Option ℚ := v.orElse (fun _ => d)

/-- The configuration leaves `apply_debt_layer` and its helpers read from
the nested `params` dictionary (`none` models a missing path or a null). -/
structure Params where
  capacity_mw : Option ℚ := none
  capacity_mw_legacy : Option ℚ := none
  lifetime_years : Option ℚ := none
  lifetime_years_legacy : Option ℚ := none
  capex_usd_total : Option ℚ := none
  capex_usd_per_mw : Option ℚ := none
  capex_floor_per_mw : Option ℚ := none
  debt_ratio : Option ℚ := none
  tenor_years : Option ℚ := none
  amortization : Option String := none
  dscr_target : Option ℚ := none
  mix_lkr_max : Option ℚ := none
  mix_dfi_max : Option ℚ := none
  mix_usd_min : Option ℚ := none
  lkr_nominal : Option ℚ := none
  lkr_floor : Option ℚ := none
  usd_nominal : Option ℚ := none
  usd_floor : Option ℚ := none
  dfi_nominal : Option ℚ := none
  dfi_floor : Option ℚ := none
  interest_only_years : Option ℚ := none
  dsra_months : Option ℚ := none
  recv_guarantee_months : Option ℚ := none
  guarantee_revenue_pct : Option ℚ := none
  fees_guarantee_pct : Option ℚ := none
  min_dscr : Option ℚ := none
deriving DecidableEq

/-- `_capacity_mw`: namespaced value, then the legacy key, then `1.0` (a
configured `0` also falls back to `1.0` through the trailing `or`). -/
def capacityMw (p : Params) : ℚ :=
  pyOr (asFloat p.capacity_mw (asFloat p.capacity_mw_legacy (some 1))) 1

/-- `_lifetime_years`: `int(... or 20)` over the namespaced then legacy key
(a configured `0` falls back to `20`). -/
def lifetimeYears (p : Params) : ℤ :=
  pyInt (pyOr (asFloat p.lifetime_years (asFloat p.lifetime_years_legacy (some 20))) 20)

/-- `_capex_usd`: the explicit total if present, else
`max(usd_per_mw, floor_per_mw) * capacity`. -/
def capexUsd (p : Params) : ℚ :=
  match p.capex_usd_total with
  | some total => total
  | none =>
    let per_mw := pyOr (asFloat p.capex_usd_per_mw (some 1000000)) 1000000
    let floor_pm := pyOr (asFloat p.capex_floor_per_mw (some 1000000)) 1000000
    max per_mw floor_pm * capacityMw p

/-- `_solve_mix` from debt.py: LKR and DFI caps first, remainder to USD
commercial; a USD shortfall below its minimum is pulled from LKR first and
then from DFI, each pull bounded by what the source tranche holds. -/
def solveMix (p : Params) (debt_total : ℚ) : TrMap Tranche :=
  let mix_usd_min := pyOr (asFloat p.mix_usd_min (some 0)) 0
  let r_lkr := asFloat p.lkr_nominal (asFloat p.lkr_floor (some 0))
  let r_usd := asFloat p.usd_nominal (asFloat p.usd_floor (some 0))
  let r_dfi := asFloat p.dfi_nominal (asFloat p.dfi_floor (some 0))
  let lkr_amt := min (debt_total * pyOr p.mix_lkr_max 0) debt_total
  let dfi_amt := min (debt_total * pyOr p.mix_dfi_max 0) (max 0 (debt_total - lkr_amt))
  let usd_amt := max 0 (debt_total - lkr_amt - dfi_amt)
  let min_usd_amt := debt_total * mix_usd_min
  let final :=
    if usd_amt < min_usd_amt then
      let need := min_usd_amt - usd_amt
      let pull_lkr := min need lkr_amt
      let lkr1 := lkr_amt - pull_lkr
      let need1 := need - pull_lkr
      let dfi1 := if 0 < need1 then dfi_amt - min need1 dfi_amt else dfi_amt
      (lkr1, dfi1, debt_total - lkr1 - dfi1)
    else (lkr_amt, dfi_amt, usd_amt)
  let years_io := pyInt (pyOr (asFloat p.interest_only_years (some 0)) 0)
  ⟨⟨"LKR", pyOr r_lkr 0, final.1, years_io⟩,
   ⟨"USD", pyOr r_usd 0, final.2.2, years_io⟩,
   ⟨"DFI", pyOr r_dfi 0, final.2.1, years_io⟩⟩

/-- One entry of `annual_rows` (a missing key is `none`). -/
structure AnnualRow where
  cfads_usd : Option ℚ := none
  equity_cf : Option ℚ := none
  revenue_usd : Option ℚ := none
deriving DecidableEq

/-- The branch guard of `apply_debt_layer`: debt is applied unless
`debt_ratio` is missing, `0.0` (falsy) or `≤ 0`. -/
def debtApplied (p : Params) : Bool :=
  qTruthy p.debt_ratio && decide (0 < p.debt_ratio.getD 0)

/-- `debt_total = capex * debt_ratio` (meaningful on the debt path). -/
def debtTotalOf (p : Params) : ℚ := capexUsd p * p.debt_ratio.getD 0

/-- The CFADS series: `cfads_usd` with `equity_cf` fallback (then
`float(v or 0.0)`) over the first `lifetime` rows, padded with the last
value (or `0`) up to `lifetime` entries. -/
def cfadsOf (p : Params) (rows : List AnnualRow) : List ℚ :=
  let base := (pySlice (lifetimeYears p) rows).map (fun row =>
    pyOr (row.cfads_usd.orElse fun _ => row.equity_cf.orElse fun _ => some 0) 0)
  base ++ List.replicate (lifetimeYears p - (base.length : ℤ)).toNat (base.getLastD 0)

def trMapOf (p : Params) : TrMap Tranche := solveMix p (debtTotalOf p)

def ioYearsOf (p : Params) : ℤ := ioYears (trMapOf p)

/-- `amort_years = max(0, tenor_years - io_years)`. -/
def amortYearsOf (p : Params) : ℤ :=
  max 0 (pyInt (pyOr (asFloat p.tenor_years (some 0)) 0) - ioYearsOf p)

/-- `(params.financing.amortization or "sculpted").lower()`. -/
def amortizationOf (p : Params) : String := pyLower (pyOrStr p.amortization "sculpted")

def dscrTargetOf (p : Params) : Option ℚ := asFloat p.dscr_target none

/-- The strategy selection of `apply_debt_layer` (line 236): the sculpted
schedule only when the amortization string starts with `"sculp"` AND
`dscr_target` is truthy; otherwise per-tranche annuity schedules. -/
def schMapOf (p : Params) (rows : List AnnualRow) : TrMap (List DebtRow) :=
  if pyStartswith (amortizationOf p) "sculp" && qTruthy (dscrTargetOf p) then
    sculptedSchedule (trMapOf p) (amortYearsOf p) (cfadsOf p rows)
      ((dscrTargetOf p).getD 0)
  else
    (trMapOf p).map (fun tr => annuitySchedule tr (amortYearsOf p))

/-- `max_len = max(len(v) for v in sch_map.values())`. -/
def maxLenOf (p : Params) (rows : List AnnualRow) : ℕ :=
  max (max (schMapOf p rows).lkr.length (schMapOf p rows).usd.length)
    (schMapOf p rows).dfi.length

/-- `total_years = max(lifetime, max_len)`. -/
def totalYearsOf (p : Params) (rows : List AnnualRow) : ℤ :=
  max (lifetimeYears p) ((maxLenOf p rows : ℤ))

/-- Aggregated per-year interest across the three tranches, zero-padded to
`total_years` entries (the aggregation loop reads each tranche's row `y`
when it exists and adds nothing otherwise). -/
def interestSeriesFull (p : Params) (rows : List AnnualRow) : List ℚ :=
  (List.range (totalYearsOf p rows).toNat).map (fun y =>
    ((schMapOf p rows).lkr.getD y zeroRow).interest +
      ((schMapOf p rows).usd.getD y zeroRow).interest +
      ((schMapOf p rows).dfi.getD y zeroRow).interest)

/-- Aggregated per-year principal across the three tranches. -/
def principalSeriesFull (p : Params) (rows : List AnnualRow) : List ℚ :=
  (List.range (totalYearsOf p rows).toNat).map (fun y =>
    ((schMapOf p rows).lkr.getD y zeroRow).principal +
      ((schMapOf p rows).usd.getD y zeroRow).principal +
      ((schMapOf p rows).dfi.getD y zeroRow).principal)

/-- `debt_service = [i + p for i, p in zip(interest_series, principal_series)]`. -/
def debtServiceFull (p : Params) (rows : List AnnualRow) : List ℚ :=
  List.zipWith (· + ·) (interestSeriesFull p rows) (principalSeriesFull p rows)

/-- The sequential DSRA loop (debt.py lines 272–283) over the per-year
target buffers, carrying the running balance; deltas below `1e-9` in
magnitude are skipped.  Returns the per-year flows and the final balance. -/
def dsraAux : List ℚ → ℚ → List ℚ × ℚ
  | [], buf => ([], buf)
  | need :: rest, buf =>
    let delta := need - buf
    if |delta| < 1 / 1000000000 then
      let r := dsraAux rest buf
      (0 :: r.1, r.2)
    else if 0 < delta then
      let r := dsraAux rest (buf + delta)
      (-delta :: r.1, r.2)
    else
      let r := dsraAux rest (buf + delta)
      (-delta :: r.1, r.2)

/-- The DSRA block as a function of the reserve window (months) and the
debt-service series: `monthly = debt_service / 12`,
`target_buf[y] = sum(monthly[y:y+dsra_m])`, then the sequential loop. -/
def dsraFlows (dsra_m : ℕ) (debt_service : List ℚ) : List ℚ :=
  let monthly := debt_service.map (fun s => s / 12)
  let targets := (List.range debt_service.length).map
    (fun y => ((monthly.drop y).take dsra_m).sum)
  (dsraAux targets 0).1

def dsraMonthsOf (p : Params) : ℤ := pyInt (pyOr (asFloat p.dsra_months (some 0)) 0)

def recvMonthsOf (p : Params) : ℤ := pyInt (pyOr (asFloat p.recv_guarantee_months (some 0)) 0)

/-- `fee_pct`: `financing.fees.guarantee_pct_of_revenue` with
`financing.guarantee_revenue_pct` as its fallback default. -/
def feePctOf (p : Params) : Option ℚ :=
  asFloat p.fees_guarantee_pct (asFloat p.guarantee_revenue_pct none)

/-- `revenues = [float(row.get("revenue_usd", 0.0) or 0.0) for row in
annual_rows[:total_years]]`. -/
def revenuesOf (p : Params) (rows : List AnnualRow) : List ℚ :=
  (pySlice (totalYearsOf p rows) rows).map (fun row =>
    pyOr (row.revenue_usd.orElse fun _ => some 0) 0)

/-- `fees_cash`: the receivables-guarantee fee branch; all zero unless
`recv_m > 0`, the fee is truthy and some revenue is truthy. -/
def feesCashOf (p : Params) (rows : List AnnualRow) : List ℚ :=
  let T := (totalYearsOf p rows).toNat
  let revenues := revenuesOf p rows
  if 0 < recvMonthsOf p ∧ qTruthy (feePctOf p) = true ∧
      revenues.any (fun r => decide (r ≠ 0)) = true then
    (List.range T).map (fun y =>
      if y < min T revenues.length then revenues.getD y 0 * (feePctOf p).getD 0 else 0)
  else List.replicate T 0

/-- `dsra_cash`: zero when a receivables guarantee is configured (the two
mechanisms are mutually exclusive), else the sequential DSRA loop when
`dsra_months > 0` and the schedule is non-empty. -/
def dsraCashOf (p : Params) (rows : List AnnualRow) : List ℚ :=
  let T := (totalYearsOf p rows).toNat
  if 0 < recvMonthsOf p then List.replicate T 0
  else if 0 < dsraMonthsOf p ∧ 0 < totalYearsOf p rows then
    dsraFlows (dsraMonthsOf p).toNat (debtServiceFull p rows)
  else List.replicate T 0

/-- `dscr_series` over the full (untruncated) schedule: `cf / svc` when the
year's total debt service `svc` is positive, else `none` (never `0`). -/
def dscrSeriesFull (p : Params) (rows : List AnnualRow) : List (Option ℚ) :=
  (List.range (totalYearsOf p rows).toNat).map (fun y =>
    if 0 < (debtServiceFull p rows).getD y 0 then
      some (cfGet (cfadsOf p rows) y / (debtServiceFull p rows).getD y 0)
    else none)

/-- `dscr_min = min([x for x in dscr_series if x is not None], default=None)`. -/
def dscrMinOf (p : Params) (rows : List AnnualRow) : Option ℚ :=
  ((dscrSeriesFull p rows).filterMap id).min?

/-- `total_principal_paid = sum(principal_series)` (the full series). -/
def totalPrincipalPaidOf (p : Params) (rows : List AnnualRow) : ℚ :=
  (principalSeriesFull p rows).sum

/-- `balloon_remaining = max(0.0, debt_total - total_principal_paid)`. -/
def balloonOf (p : Params) (rows : List AnnualRow) : ℚ :=
  max 0 (debtTotalOf p - totalPrincipalPaidOf p rows)

/-- `adjustments = [-(debt_service[y]) + dsra_cash[y] - fees_cash[y]]`. -/
def adjustmentsFull (p : Params) (rows : List AnnualRow) : List ℚ :=
  (List.range (totalYearsOf p rows).toNat).map (fun y =>
    -((debtServiceFull p rows).getD y 0) + (dsraCashOf p rows).getD y 0 -
      (feesCashOf p rows).getD y 0)

/-- The advisory notes (formatted numbers elided from the note strings). -/
def notesOf (p : Params) (rows : List AnnualRow) : List String :=
  (if 1 / 1000000 < balloonOf p rows then ["Balloon remains at maturity"] else []) ++
    (match dscrMinOf p rows, asFloat p.min_dscr none with
     | some m, some c =>
       if m + 1 / 1000000000 < c then ["DSCR min below minimum covenant."] else []
     | _, _ => [])

/-- The result dictionary of `apply_debt_layer`: fields only one mode
returns are `Option`s. -/
structure DebtResult where
  mode : String
  debt_total : Option ℚ
  equity_total : Option ℚ
  interest_series : List ℚ
  principal_series : List ℚ
  debt_service : List ℚ
  dscr_series : List (Option ℚ)
  dscr_min : Option ℚ
  dsra_cashflows : List ℚ
  fees_cashflows : List ℚ
  balloon_remaining : ℚ
  adjustments : Option (List ℚ)
  notes : List String
deriving DecidableEq

/-- `apply_debt_layer` from debt.py: the equity-only short-circuit, else the
debt path with every per-year series truncated to `lifetime` entries while
`dscr_min` and `balloon_remaining` come from the full schedule. -/
def applyDebtLayer (p : Params) (rows : List AnnualRow) : DebtResult :=
  if debtApplied p then
    { mode := "debt_applied"
      debt_total := some (debtTotalOf p)
      equity_total := some (capexUsd p - debtTotalOf p)
      interest_series := pySlice (lifetimeYears p) (interestSeriesFull p rows)
      principal_series := pySlice (lifetimeYears p) (principalSeriesFull p rows)
      debt_service := pySlice (lifetimeYears p) (debtServiceFull p rows)
      dscr_series := pySlice (lifetimeYears p) (dscrSeriesFull p rows)
      dscr_min := dscrMinOf p rows
      dsra_cashflows := pySlice (lifetimeYears p) (dsraCashOf p rows)
      fees_cashflows := pySlice (lifetimeYears p) (feesCashOf p rows)
      balloon_remaining := balloonOf p rows
      adjustments := some (pySlice (lifetimeYears p) (adjustmentsFull p rows))
      notes := notesOf p rows }
  else
    { mode := "equity_only"
      debt_total := none
      equity_total := none
      interest_series := List.replicate (lifetimeYears p).toNat 0
      principal_series := List.replicate (lifetimeYears p).toNat 0
      debt_service := List.replicate (lifetimeYears p).toNat 0
      dscr_series := List.replicate (lifetimeYears p).toNat none
      dscr_min := none
      dsra_cashflows := List.replicate (lifetimeYears p).toNat 0
      fees_cashflows := List.replicate (lifetimeYears p).toNat 0
      balloon_remaining := 0
      adjustments := none
      notes := ["No debt terms present; equity-only path."] }

/-! ### Annuity arithmetic: the clamps of the amortizing loop never fire
for a tranche with non-negative rate and principal, so the loop follows the
clamp-free trajectory `idealBal`, which telescopes. -/

lemma sgeom_nonneg (r : ℚ) (hr : 0 ≤ r) : ∀ k, 0 ≤ sgeom r k
  | 0 => le_refl 0
  | k + 1 => by
    have h := sgeom_nonneg r hr k
    simp only [sgeom]
    nlinarith

lemma one_le_sgeom_succ (r : ℚ) (hr : 0 ≤ r) (k : ℕ) : 1 ≤ sgeom r (k + 1) := by
  have h := sgeom_nonneg r hr k
  simp only [sgeom]
  nlinarith

lemma r_mul_sgeom (r : ℚ) : ∀ n, r * sgeom r n = (1 + r) ^ n - 1
  | 0 => by simp [sgeom]
  | n + 1 => by
    have ih := r_mul_sgeom r n
    simp only [sgeom, pow_succ]
    linear_combination (1 + r) * ih

lemma sgeom_zero_rate : ∀ n, sgeom 0 n = n
  | 0 => by simp [sgeom]
  | n + 1 => by
    rw [sgeom, sgeom_zero_rate n]
    push_cast
    ring

lemma sgeom_add (r : ℚ) (k : ℕ) : ∀ m, sgeom r (k + m) = sgeom r m + (1 + r) ^ m * sgeom r k
  | 0 => by simp [sgeom]
  | m + 1 => by
    have ih := sgeom_add r k m
    show sgeom r (k + m + 1) = _
    rw [sgeom, ih, sgeom, pow_succ]
    ring

lemma pmt_mul_sgeom (r pv : ℚ) (n : ℕ) (hr : 0 ≤ r) (hn : 0 < n) :
    pmt r n pv * sgeom r n = pv * (1 + r) ^ n := by
  obtain ⟨m, rfl⟩ : ∃ m, n = m + 1 := ⟨n - 1, (Nat.succ_pred_eq_of_pos hn).symm⟩
  rcases eq_or_lt_of_le hr with h0 | hpos
  · rw [pmt, if_pos h0.symm, ← h0, sgeom_zero_rate]
    have hne : ((m : ℚ) + 1) ≠ 0 := by positivity
    push_cast
    field_simp
  · have hs : 1 ≤ sgeom r (m + 1) := one_le_sgeom_succ r hr m
    have hd : r * sgeom r (m + 1) = (1 + r) ^ (m + 1) - 1 := r_mul_sgeom r (m + 1)
    have hdne : (1 + r) ^ (m + 1) - 1 ≠ 0 := by nlinarith
    rw [pmt, if_neg (ne_of_gt hpos), div_mul_eq_mul_div, div_eq_iff hdne, ← hd]
    ring

lemma pmt_nonneg (r pv : ℚ) (n : ℕ) (hr : 0 ≤ r) (hpv : 0 ≤ pv) (hn : 0 < n) :
    0 ≤ pmt r n pv := by
  rcases eq_or_lt_of_le hr with h0 | hpos
  · rw [pmt, if_pos h0.symm]
    exact div_nonneg hpv (Nat.cast_nonneg n)
  · obtain ⟨m, rfl⟩ : ∃ m, n = m + 1 := ⟨n - 1, (Nat.succ_pred_eq_of_pos hn).symm⟩
    have hs : 1 ≤ sgeom r (m + 1) := one_le_sgeom_succ r hr m
    have hd : r * sgeom r (m + 1) = (1 + r) ^ (m + 1) - 1 := r_mul_sgeom r (m + 1)
    rw [pmt, if_neg (ne_of_gt hpos)]
    apply div_nonneg
    · have hp : (0:ℚ) ≤ (1 + r) ^ (m + 1) := by positivity
      positivity
    · nlinarith

lemma le_pmt (r pv : ℚ) (n : ℕ) (hr : 0 ≤ r) (hpv : 0 ≤ pv) (hn : 0 < n) :
    r * pv ≤ pmt r n pv := by
  rcases eq_or_lt_of_le hr with h0 | hpos
  · rw [← h0, zero_mul]
    exact pmt_nonneg 0 pv n (le_refl 0) hpv hn
  · obtain ⟨m, rfl⟩ : ∃ m, n = m + 1 := ⟨n - 1, (Nat.succ_pred_eq_of_pos hn).symm⟩
    have hs : 1 ≤ sgeom r (m + 1) := one_le_sgeom_succ r hr m
    have key := pmt_mul_sgeom r pv (m + 1) hr (Nat.succ_pos m)
    have hd : r * sgeom r (m + 1) = (1 + r) ^ (m + 1) - 1 := r_mul_sgeom r (m + 1)
    have hX : (0:ℚ) < (1 + r) ^ (m + 1) - 1 := by nlinarith
    have e1 : pmt r (m + 1) pv * ((1 + r) ^ (m + 1) - 1) = r * (pv * (1 + r) ^ (m + 1)) := by
      rw [← hd, ← key]
      ring
    nlinarith [e1, hX, mul_nonneg hr hpv]

lemma idealBal_closed (r A pv : ℚ) : ∀ k, idealBal r A pv k = pv * (1 + r) ^ k - A * sgeom r k
  | 0 => by simp [idealBal, sgeom]
  | k + 1 => by
    rw [idealBal, idealBal_closed r A pv k, sgeom, pow_succ]
    ring

lemma idealBal_shift (r A pv : ℚ) : ∀ k, idealBal r A ((1 + r) * pv - A) k = idealBal r A pv (k + 1)
  | 0 => by simp [idealBal]
  | k + 1 => by
    rw [idealBal, idealBal_shift r A pv k]
    rfl

lemma idealBal_maturity (r pv : ℚ) (n : ℕ) (hr : 0 ≤ r) (hn : 0 < n) :
    idealBal r (pmt r n pv) pv n = 0 := by
  have key := pmt_mul_sgeom r pv n hr hn
  rw [idealBal_closed]
  linarith

lemma idealBal_nonneg (r pv : ℚ) (n k : ℕ) (hr : 0 ≤ r) (hpv : 0 ≤ pv) (hn : 0 < n)
    (hk : k ≤ n) : 0 ≤ idealBal r (pmt r n pv) pv k := by
  have hA := pmt_nonneg r pv n hr hpv hn
  have key := pmt_mul_sgeom r pv n hr hn
  obtain ⟨m, rfl⟩ : ∃ m, n = k + m := ⟨n - k, (Nat.add_sub_cancel' hk).symm⟩
  have hsplit := sgeom_add r k m
  have hpow : (0:ℚ) < (1 + r) ^ m := pow_pos (by linarith) m
  have hsm : 0 ≤ sgeom r m := sgeom_nonneg r hr m
  have h2 : pmt r (k + m) pv * sgeom r k * (1 + r) ^ m ≤ pv * (1 + r) ^ k * (1 + r) ^ m := by
    have e2 : pv * (1 + r) ^ k * (1 + r) ^ m = pmt r (k + m) pv * sgeom r (k + m) := by
      rw [key, pow_add]
      ring
    rw [e2, hsplit]
    nlinarith [mul_nonneg hA hsm]
  have h3 := le_of_mul_le_mul_right h2 hpow
  rw [idealBal_closed]
  linarith

lemma idealBal_le (r pv : ℚ) (n : ℕ) (hr : 0 ≤ r) (hpv : 0 ≤ pv) (hn : 0 < n) :
    ∀ k, idealBal r (pmt r n pv) pv k ≤ pv ∧
      r * idealBal r (pmt r n pv) pv k ≤ pmt r n pv
  | 0 => ⟨le_refl pv, le_pmt r pv n hr hpv hn⟩
  | k + 1 => by
    obtain ⟨h1, h2⟩ := idealBal_le r pv n hr hpv hn k
    have hstep : idealBal r (pmt r n pv) pv (k + 1) ≤ pv := by
      rw [idealBal]
      nlinarith
    refine ⟨hstep, ?_⟩
    calc r * idealBal r (pmt r n pv) pv (k + 1) ≤ r * pv :=
        mul_le_mul_of_nonneg_left hstep hr
      _ ≤ pmt r n pv := le_pmt r pv n hr hpv hn

lemma annuityAmortRows_eq_ideal (r pv : ℚ) (n : ℕ) (hr : 0 ≤ r) (hpv : 0 ≤ pv) (hn : 0 < n) :
    ∀ m k, m + k = n →
      annuityAmortRows r (pmt r n pv) m (idealBal r (pmt r n pv) pv k) =
        idealRows r (pmt r n pv) m (idealBal r (pmt r n pv) pv k)
  | 0, k, _ => rfl
  | m + 1, k, hmk => by
    have hk1 : k + 1 ≤ n := by omega
    have hb : idealBal r (pmt r n pv) pv k * r ≤ pmt r n pv := by
      rw [mul_comm]
      exact (idealBal_le r pv n hr hpv hn k).2
    have h1 : max 0 (pmt r n pv - idealBal r (pmt r n pv) pv k * r) =
        pmt r n pv - idealBal r (pmt r n pv) pv k * r :=
      max_eq_right (sub_nonneg.mpr hb)
    have h2 : idealBal r (pmt r n pv) pv k -
        (pmt r n pv - idealBal r (pmt r n pv) pv k * r) =
        idealBal r (pmt r n pv) pv (k + 1) := by
      rw [idealBal]
      ring
    have h3 : max 0 (idealBal r (pmt r n pv) pv (k + 1)) =
        idealBal r (pmt r n pv) pv (k + 1) :=
      max_eq_right (idealBal_nonneg r pv n (k + 1) hr hpv hn hk1)
    have h4 : (1 + r) * idealBal r (pmt r n pv) pv k - pmt r n pv =
        idealBal r (pmt r n pv) pv (k + 1) := rfl
    rw [annuityAmortRows, idealRows, h1, h2, h3, h4]
    rw [annuityAmortRows_eq_ideal r pv n hr hpv hn m (k + 1) (by omega)]

lemma idealRows_principal_sum (r A : ℚ) : ∀ (m : ℕ) (b : ℚ),
    ((idealRows r A m b).map DebtRow.principal).sum = b - idealBal r A b m
  | 0, b => by simp [idealRows, idealBal]
  | m + 1, b => by
    simp only [idealRows, List.map_cons, List.sum_cons]
    rw [idealRows_principal_sum r A m ((1 + r) * b - A), idealBal_shift]
    ring

lemma annuity_amort_principal_sum (r pv : ℚ) (n : ℕ) (hr : 0 ≤ r) (hpv : 0 ≤ pv)
    (hn : 0 < n) :
    ((annuityAmortRows r (pmt r n pv) n pv).map DebtRow.principal).sum = pv := by
  have h0 : idealBal r (pmt r n pv) pv 0 = pv := rfl
  have he := annuityAmortRows_eq_ideal r pv n hr hpv hn n 0 (by omega)
  rw [h0] at he
  rw [he, idealRows_principal_sum, idealBal_maturity r pv n hr hn]
  ring

lemma annuitySchedule_principal_sum (tr : Tranche) (amort_years : ℤ)
    (hr : 0 ≤ tr.rate) (hpv : 0 ≤ tr.principal) (hn : 1 ≤ amort_years) :
    ((annuitySchedule tr amort_years).map DebtRow.principal).sum = tr.principal := by
  simp only [annuitySchedule]
  rw [if_pos (by omega : (0:ℤ) < amort_years), List.map_append, List.sum_append,
    List.map_replicate]
  have hio : (List.replicate tr.years_io.toNat
      (DebtRow.principal ⟨tr.principal * tr.rate, 0, tr.principal * tr.rate⟩)).sum = 0 := by
    simp
  rw [hio, zero_add]
  exact annuity_amort_principal_sum tr.rate tr.principal amort_years.toNat hr hpv (by omega)

/-- C3: under the level-annuity strategy, a tranche with non-negative rate,
non-negative principal and at least one amortizing year repays exactly its
original principal over its schedule (exact rational arithmetic, so the
`≤ 1e-6` relative tolerance of the claim is met with zero error). -/
theorem c3_annuity_full_repayment (tr : Tranche) (amort_years : ℤ)
    (hr : 0 ≤ tr.rate) (hpv : 0 ≤ tr.principal) (hn : 1 ≤ amort_years) :
    ((annuitySchedule tr amort_years).map DebtRow.principal).sum = tr.principal :=
  annuitySchedule_principal_sum tr amort_years hr hpv hn

/-- C3 witness: a concrete 8%, 10-year tranche of 70,000,000 repays exactly. -/
theorem c3_witness :
    ((annuitySchedule ⟨"USD", 2/25, 70000000, 0⟩ 10).map DebtRow.principal).sum
      = 70000000 :=
  c3_annuity_full_repayment ⟨"USD", 2/25, 70000000, 0⟩ 10 (by norm_num) (by norm_num)
    (by norm_num)

/-! ### Schedule invariants (both strategies) -/

/-- One schedule year's tranche invariant: the new balance lies in
`[0, old balance]` and the principal paid lies in `[0, old balance]`. -/
def stepInv (balNew balOld principal : ℚ) : Prop :=
  0 ≤ balNew ∧ balNew ≤ balOld ∧ 0 ≤ principal ∧ principal ≤ balOld

lemma sculptTranche_inv (pt tb bal i : ℚ) (hb : 0 ≤ bal) (hpt : 0 ≤ pt) :
    stepInv (sculptTranche pt tb bal i).2 bal (sculptTranche pt tb bal i).1.principal := by
  simp only [sculptTranche, stepInv]
  have hpr : 0 ≤ (if 0 < tb then bal / tb else 0) := by
    split
    · exact div_nonneg hb (by linarith)
    · exact le_refl 0
  have hp0 : 0 ≤ min bal (pt * (if 0 < tb then bal / tb else 0)) :=
    le_min hb (mul_nonneg hpt hpr)
  have hp1 : min bal (pt * (if 0 < tb then bal / tb else 0)) ≤ bal := min_le_left _ _
  exact ⟨le_max_left _ _, max_le hb (by linarith), hp0, hp1⟩

lemma sculptYear_inv (trs : TrMap Tranche) (obals : TrMap ℚ) (cf t : ℚ)
    (hl : 0 ≤ obals.lkr) (hu : 0 ≤ obals.usd) (hd : 0 ≤ obals.dfi) :
    stepInv (sculptYear trs obals cf t).2.lkr obals.lkr
        (sculptYear trs obals cf t).1.lkr.principal ∧
      stepInv (sculptYear trs obals cf t).2.usd obals.usd
        (sculptYear trs obals cf t).1.usd.principal ∧
      stepInv (sculptYear trs obals cf t).2.dfi obals.dfi
        (sculptYear trs obals cf t).1.dfi.principal := by
  simp only [sculptYear]
  have hpt : 0 ≤ max 0 (max 0 (cf / t) -
      (obals.lkr * trs.lkr.rate + obals.usd * trs.usd.rate + obals.dfi * trs.dfi.rate)) :=
    le_max_left _ _
  exact ⟨sculptTranche_inv _ _ _ _ hl hpt, sculptTranche_inv _ _ _ _ hu hpt,
    sculptTranche_inv _ _ _ _ hd hpt⟩

lemma annuityBal_eq_ideal (r pv : ℚ) (n : ℕ) (hr : 0 ≤ r) (hpv : 0 ≤ pv) (hn : 0 < n) :
    ∀ k, k ≤ n → annuityBal r (pmt r n pv) pv k = idealBal r (pmt r n pv) pv k
  | 0, _ => rfl
  | k + 1, hk => by
    have ih := annuityBal_eq_ideal r pv n hr hpv hn k (by omega)
    have hb : idealBal r (pmt r n pv) pv k * r ≤ pmt r n pv := by
      rw [mul_comm]
      exact (idealBal_le r pv n hr hpv hn k).2
    have h1 : max 0 (pmt r n pv - idealBal r (pmt r n pv) pv k * r) =
        pmt r n pv - idealBal r (pmt r n pv) pv k * r :=
      max_eq_right (sub_nonneg.mpr hb)
    have h2 : idealBal r (pmt r n pv) pv k -
        (pmt r n pv - idealBal r (pmt r n pv) pv k * r) =
        idealBal r (pmt r n pv) pv (k + 1) := by
      rw [idealBal]
      ring
    have h3 : max 0 (idealBal r (pmt r n pv) pv (k + 1)) =
        idealBal r (pmt r n pv) pv (k + 1) :=
      max_eq_right (idealBal_nonneg r pv n (k + 1) hr hpv hn hk)
    show max 0 (annuityBal r (pmt r n pv) pv k -
      max 0 (pmt r n pv - annuityBal r (pmt r n pv) pv k * r)) = _
    rw [ih, h1, h2, h3]

lemma idealRows_getD (r A : ℚ) : ∀ (m k : ℕ) (b : ℚ), k < m →
    (idealRows r A m b).getD k zeroRow =
      ⟨idealBal r A b k * r, A - idealBal r A b k * r,
        idealBal r A b k * r + (A - idealBal r A b k * r)⟩
  | 0, k, b, hk => absurd hk (Nat.not_lt_zero k)
  | m + 1, 0, b, _ => rfl
  | m + 1, k + 1, b, hk => by
    have ih := idealRows_getD r A m k ((1 + r) * b - A) (by omega)
    show (idealRows r A m ((1 + r) * b - A)).getD k zeroRow = _
    rw [ih, idealBal_shift]

/-- C8: under either strategy, every tranche's outstanding balance is
non-increasing and never negative, and each year's principal is non-negative
and never exceeds the prior balance.  The annuity half assumes a
non-negative rate and principal; the sculpted half assumes non-negative
starting principals. -/
theorem c8_schedule_invariants :
    (∀ (tr : Tranche) (n k : ℕ), 0 ≤ tr.rate → 0 ≤ tr.principal → 0 < n → k < n →
      stepInv (annuityBal tr.rate (pmt tr.rate n tr.principal) tr.principal (k + 1))
        (annuityBal tr.rate (pmt tr.rate n tr.principal) tr.principal k)
        (((annuityAmortRows tr.rate (pmt tr.rate n tr.principal) n
            tr.principal).getD k zeroRow).principal)) ∧
    (∀ (trs : TrMap Tranche) (cfads : List ℚ) (t : ℚ) (k : ℕ),
      0 ≤ trs.lkr.principal → 0 ≤ trs.usd.principal → 0 ≤ trs.dfi.principal →
      (stepInv (sculptStates trs cfads t (k + 1)).lkr (sculptStates trs cfads t k).lkr
          ((sculptYear trs (sculptStates trs cfads t k)
            (cfGet cfads ((ioYears trs).toNat + k)) t).1.lkr.principal) ∧
        stepInv (sculptStates trs cfads t (k + 1)).usd (sculptStates trs cfads t k).usd
          ((sculptYear trs (sculptStates trs cfads t k)
            (cfGet cfads ((ioYears trs).toNat + k)) t).1.usd.principal) ∧
        stepInv (sculptStates trs cfads t (k + 1)).dfi (sculptStates trs cfads t k).dfi
          ((sculptYear trs (sculptStates trs cfads t k)
            (cfGet cfads ((ioYears trs).toNat + k)) t).1.dfi.principal))) := by
  constructor
  · intro tr n k hr hpv hn hk
    have heq := annuityAmortRows_eq_ideal tr.rate tr.principal n hr hpv hn n 0 (by omega)
    have h0 : idealBal tr.rate (pmt tr.rate n tr.principal) tr.principal 0 =
        tr.principal := rfl
    rw [h0] at heq
    have hrow := idealRows_getD tr.rate (pmt tr.rate n tr.principal) n k tr.principal hk
    have hbk := annuityBal_eq_ideal tr.rate tr.principal n hr hpv hn k (by omega)
    have hbk1 := annuityBal_eq_ideal tr.rate tr.principal n hr hpv hn (k + 1) (by omega)
    have hble := (idealBal_le tr.rate tr.principal n hr hpv hn k).2
    have hnn := idealBal_nonneg tr.rate tr.principal n (k + 1) hr hpv hn (by omega)
    have hrec : idealBal tr.rate (pmt tr.rate n tr.principal) tr.principal (k + 1) =
        (1 + tr.rate) * idealBal tr.rate (pmt tr.rate n tr.principal) tr.principal k -
          pmt tr.rate n tr.principal := rfl
    rw [heq, hrow, hbk, hbk1]
    refine ⟨hnn, ?_, ?_, ?_⟩
    · rw [hrec]
      nlinarith
    · simp only []
      nlinarith [hble]
    · simp only []
      nlinarith [hnn, hrec]
  · intro trs cfads t k hl hu hd
    have hst : ∀ j, 0 ≤ (sculptStates trs cfads t j).lkr ∧
        0 ≤ (sculptStates trs cfads t j).usd ∧ 0 ≤ (sculptStates trs cfads t j).dfi := by
      intro j
      induction j with
      | zero => exact ⟨hl, hu, hd⟩
      | succ i ih =>
        obtain ⟨il, iu, id'⟩ := ih
        have := sculptYear_inv trs (sculptStates trs cfads t i)
          (cfGet cfads ((ioYears trs).toNat + i)) t il iu id'
        exact ⟨this.1.1, this.2.1.1, this.2.2.1⟩
    obtain ⟨il, iu, id'⟩ := hst k
    have h := sculptYear_inv trs (sculptStates trs cfads t k)
      (cfGet cfads ((ioYears trs).toNat + k)) t il iu id'
    exact h

/-- A 10% two-year tranche for the C8 witness. -/
def trC8a : Tranche := ⟨"USD", 1/10, 100, 0⟩

/-- A sculpted tranche triple for the C8 witness. -/
def trsC8s : TrMap Tranche :=
  ⟨⟨"LKR", 1/2, 100, 0⟩, ⟨"USD", 0, 0, 0⟩, ⟨"DFI", 0, 0, 0⟩⟩

/-- C8 witness: both invariant halves at concrete inputs. -/
theorem c8_witness :
    (stepInv (annuityBal trC8a.rate (pmt trC8a.rate 2 trC8a.principal)
        trC8a.principal 1)
      (annuityBal trC8a.rate (pmt trC8a.rate 2 trC8a.principal) trC8a.principal 0)
      (((annuityAmortRows trC8a.rate (pmt trC8a.rate 2 trC8a.principal) 2
          trC8a.principal).getD 0 zeroRow).principal)) ∧
    (stepInv (sculptStates trsC8s [10] 2 1).lkr (sculptStates trsC8s [10] 2 0).lkr
        ((sculptYear trsC8s (sculptStates trsC8s [10] 2 0)
          (cfGet [10] ((ioYears trsC8s).toNat + 0)) 2).1.lkr.principal) ∧
      stepInv (sculptStates trsC8s [10] 2 1).usd (sculptStates trsC8s [10] 2 0).usd
        ((sculptYear trsC8s (sculptStates trsC8s [10] 2 0)
          (cfGet [10] ((ioYears trsC8s).toNat + 0)) 2).1.usd.principal) ∧
      stepInv (sculptStates trsC8s [10] 2 1).dfi (sculptStates trsC8s [10] 2 0).dfi
        ((sculptYear trsC8s (sculptStates trsC8s [10] 2 0)
          (cfGet [10] ((ioYears trsC8s).toNat + 0)) 2).1.dfi.principal)) :=
  ⟨c8_schedule_invariants.1 trC8a 2 0 (by norm_num [trC8a]) (by norm_num [trC8a])
      (by norm_num) (by norm_num),
    c8_schedule_invariants.2 trsC8s [10] 2 0 (by norm_num [trsC8s])
      (by norm_num [trsC8s]) (by norm_num [trsC8s])⟩

/-! ### Tranche mix resolver -/

/-- The initial LKR cap of `_solve_mix` (before the USD-minimum pull). -/
def lkrCap (p : Params) (dt : ℚ) : ℚ := min (dt * pyOr p.mix_lkr_max 0) dt

/-- The initial DFI cap of `_solve_mix`. -/
def dfiCap (p : Params) (dt : ℚ) : ℚ :=
  min (dt * pyOr p.mix_dfi_max 0) (max 0 (dt - lkrCap p dt))

/-- The USD-commercial remainder before the minimum is enforced. -/
def usdPre (p : Params) (dt : ℚ) : ℚ := max 0 (dt - lkrCap p dt - dfiCap p dt)

/-- The configured USD-commercial minimum amount. -/
def usdMinAmt (p : Params) (dt : ℚ) : ℚ :=
  dt * pyOr (asFloat p.mix_usd_min (some 0)) 0

lemma sub_min_eq_max (a b : ℚ) : a - min b a = max 0 (a - b) := by
  rcases le_total b a with h | h
  · rw [min_eq_left h, max_eq_right (by linarith)]
  · rw [min_eq_right h, max_eq_left (by linarith)]
    ring

lemma sub_min_self_eq_max (a b : ℚ) : a - min a b = max 0 (a - b) := by
  rw [min_comm]
  exact sub_min_eq_max a b

lemma solveMix_char (p : Params) (dt : ℚ) :
    ((solveMix p dt).lkr.principal, (solveMix p dt).dfi.principal,
        (solveMix p dt).usd.principal) =
      if usdPre p dt < usdMinAmt p dt then
        let need := usdMinAmt p dt - usdPre p dt
        let lkr1 := lkrCap p dt - min need (lkrCap p dt)
        let need1 := need - min need (lkrCap p dt)
        let dfi1 := if 0 < need1 then dfiCap p dt - min need1 (dfiCap p dt)
          else dfiCap p dt
        (lkr1, dfi1, dt - lkr1 - dfi1)
      else (lkrCap p dt, dfiCap p dt, usdPre p dt) := by
  simp only [solveMix, lkrCap, dfiCap, usdPre, usdMinAmt]

lemma solveMix_props (p : Params) (dt : ℚ) (hdt : 0 ≤ dt)
    (hc1 : 0 ≤ pyOr p.mix_lkr_max 0) (hc2 : 0 ≤ pyOr p.mix_dfi_max 0) :
    (0 ≤ (solveMix p dt).lkr.principal ∧ 0 ≤ (solveMix p dt).usd.principal ∧
      0 ≤ (solveMix p dt).dfi.principal) ∧
    ((solveMix p dt).lkr.principal + (solveMix p dt).usd.principal +
      (solveMix p dt).dfi.principal = dt) ∧
    (usdPre p dt < usdMinAmt p dt →
      (solveMix p dt).lkr.principal =
        max 0 (lkrCap p dt - (usdMinAmt p dt - usdPre p dt)) ∧
      (solveMix p dt).dfi.principal =
        max 0 (dfiCap p dt - max 0 ((usdMinAmt p dt - usdPre p dt) - lkrCap p dt))) := by
  have hchar := solveMix_char p dt
  have hL0 : 0 ≤ lkrCap p dt := le_min (mul_nonneg hdt hc1) hdt
  have hLle : lkrCap p dt ≤ dt := min_le_right _ _
  have hD0 : 0 ≤ dfiCap p dt := le_min (mul_nonneg hdt hc2) (le_max_left _ _)
  have hDle : dfiCap p dt ≤ dt - lkrCap p dt := by
    have h1 : dfiCap p dt ≤ max 0 (dt - lkrCap p dt) := min_le_right _ _
    rwa [max_eq_right (by linarith)] at h1
  have hrem : 0 ≤ dt - lkrCap p dt - dfiCap p dt := by linarith
  have hpre : usdPre p dt = dt - lkrCap p dt - dfiCap p dt := max_eq_right hrem
  by_cases hcond : usdPre p dt < usdMinAmt p dt
  · rw [if_pos hcond] at hchar
    have e1 : (solveMix p dt).lkr.principal =
        lkrCap p dt - min (usdMinAmt p dt - usdPre p dt) (lkrCap p dt) :=
      congrArg (fun x : ℚ × ℚ × ℚ => x.1) hchar
    have e2 : (solveMix p dt).dfi.principal =
        (if 0 < usdMinAmt p dt - usdPre p dt -
            min (usdMinAmt p dt - usdPre p dt) (lkrCap p dt) then
          dfiCap p dt - min (usdMinAmt p dt - usdPre p dt -
            min (usdMinAmt p dt - usdPre p dt) (lkrCap p dt)) (dfiCap p dt)
        else dfiCap p dt) :=
      congrArg (fun x : ℚ × ℚ × ℚ => x.2.1) hchar
    have e3 : (solveMix p dt).usd.principal =
        dt - (lkrCap p dt - min (usdMinAmt p dt - usdPre p dt) (lkrCap p dt)) -
          (if 0 < usdMinAmt p dt - usdPre p dt -
              min (usdMinAmt p dt - usdPre p dt) (lkrCap p dt) then
            dfiCap p dt - min (usdMinAmt p dt - usdPre p dt -
              min (usdMinAmt p dt - usdPre p dt) (lkrCap p dt)) (dfiCap p dt)
          else dfiCap p dt) :=
      congrArg (fun x : ℚ × ℚ × ℚ => x.2.2) hchar
    have hneed : 0 < usdMinAmt p dt - usdPre p dt := by linarith
    have hlkr1 : (solveMix p dt).lkr.principal =
        max 0 (lkrCap p dt - (usdMinAmt p dt - usdPre p dt)) := by
      rw [e1, sub_min_eq_max]
    have hneed1 : usdMinAmt p dt - usdPre p dt -
        min (usdMinAmt p dt - usdPre p dt) (lkrCap p dt) =
        max 0 (usdMinAmt p dt - usdPre p dt - lkrCap p dt) :=
      sub_min_self_eq_max _ _
    have hdfi1 : (solveMix p dt).dfi.principal =
        max 0 (dfiCap p dt - max 0 ((usdMinAmt p dt - usdPre p dt) - lkrCap p dt)) := by
      rw [e2, hneed1]
      by_cases hpos : 0 < max 0 (usdMinAmt p dt - usdPre p dt - lkrCap p dt)
      · rw [if_pos hpos, sub_min_eq_max]
      · rw [if_neg hpos]
        have hz : max 0 (usdMinAmt p dt - usdPre p dt - lkrCap p dt) = 0 := by
          have h4 := le_max_left 0 (usdMinAmt p dt - usdPre p dt - lkrCap p dt)
          linarith [not_lt.mp hpos]
        rw [hz, sub_zero, max_eq_right hD0]
    have hlkr0 : 0 ≤ (solveMix p dt).lkr.principal := by
      rw [hlkr1]
      exact le_max_left _ _
    have hdfi0 : 0 ≤ (solveMix p dt).dfi.principal := by
      rw [hdfi1]
      exact le_max_left _ _
    have hlkrle : (solveMix p dt).lkr.principal ≤ lkrCap p dt := by
      rw [hlkr1]
      exact max_le hL0 (by linarith)
    have hdfile : (solveMix p dt).dfi.principal ≤ dfiCap p dt := by
      rw [hdfi1]
      have h4 := le_max_left 0 (usdMinAmt p dt - usdPre p dt - lkrCap p dt)
      exact max_le hD0 (by linarith)
    have hsum : (solveMix p dt).lkr.principal + (solveMix p dt).usd.principal +
        (solveMix p dt).dfi.principal = dt := by
      rw [e3, ← e1, ← e2]
      ring
    have husd0 : 0 ≤ (solveMix p dt).usd.principal := by
      have h5 : (solveMix p dt).usd.principal =
          dt - (solveMix p dt).lkr.principal - (solveMix p dt).dfi.principal := by
        linarith [hsum]
      rw [h5]
      linarith
    exact ⟨⟨hlkr0, husd0, hdfi0⟩, hsum, fun _ => ⟨hlkr1, hdfi1⟩⟩
  · rw [if_neg hcond] at hchar
    have e1 : (solveMix p dt).lkr.principal = lkrCap p dt :=
      congrArg (fun x : ℚ × ℚ × ℚ => x.1) hchar
    have e2 : (solveMix p dt).dfi.principal = dfiCap p dt :=
      congrArg (fun x : ℚ × ℚ × ℚ => x.2.1) hchar
    have e3 : (solveMix p dt).usd.principal = usdPre p dt :=
      congrArg (fun x : ℚ × ℚ × ℚ => x.2.2) hchar
    refine ⟨⟨by rw [e1]; exact hL0, by rw [e3]; exact le_max_left _ _,
      by rw [e2]; exact hD0⟩, ?_, fun hc => absurd hc hcond⟩
    rw [e1, e2, e3, hpre]
    ring

/-- C4: for non-negative total debt, cap fractions and USD-minimum
fraction, `_solve_mix` returns three non-negative principals summing
exactly to the total; when USD falls short of its minimum the shortfall is
pulled from LKR first, then DFI, each clamped at zero (so jointly
infeasible constraints silently leave USD below its nominal minimum, and
the resolver — a total function — never errors). -/
theorem c4_mix_feasible (p : Params) (dt : ℚ) (hdt : 0 ≤ dt)
    (hc1 : 0 ≤ pyOr p.mix_lkr_max 0) (hc2 : 0 ≤ pyOr p.mix_dfi_max 0)
    (_hmu : 0 ≤ pyOr (asFloat p.mix_usd_min (some 0)) 0) :
    (0 ≤ (solveMix p dt).lkr.principal ∧ 0 ≤ (solveMix p dt).usd.principal ∧
      0 ≤ (solveMix p dt).dfi.principal) ∧
    ((solveMix p dt).lkr.principal + (solveMix p dt).usd.principal +
      (solveMix p dt).dfi.principal = dt) ∧
    (usdPre p dt < usdMinAmt p dt →
      (solveMix p dt).lkr.principal =
        max 0 (lkrCap p dt - (usdMinAmt p dt - usdPre p dt)) ∧
      (solveMix p dt).dfi.principal =
        max 0 (dfiCap p dt - max 0 ((usdMinAmt p dt - usdPre p dt) - lkrCap p dt))) :=
  solveMix_props p dt hdt hc1 hc2

/-- Mix parameters whose caps and USD floor force a pull from LKR. -/
def pC4 : Params :=
  { mix_lkr_max := some (3/5), mix_dfi_max := some (3/10), mix_usd_min := some (3/10) }

/-- C4 witness: caps 60%/30% with a 30% USD minimum on a total of 100. -/
theorem c4_witness :
    (0 ≤ (solveMix pC4 100).lkr.principal ∧ 0 ≤ (solveMix pC4 100).usd.principal ∧
      0 ≤ (solveMix pC4 100).dfi.principal) ∧
    ((solveMix pC4 100).lkr.principal + (solveMix pC4 100).usd.principal +
      (solveMix pC4 100).dfi.principal = 100) ∧
    (usdPre pC4 100 < usdMinAmt pC4 100 →
      (solveMix pC4 100).lkr.principal =
        max 0 (lkrCap pC4 100 - (usdMinAmt pC4 100 - usdPre pC4 100)) ∧
      (solveMix pC4 100).dfi.principal =
        max 0 (dfiCap pC4 100 - max 0 ((usdMinAmt pC4 100 - usdPre pC4 100) -
          lkrCap pC4 100))) :=
  c4_mix_feasible pC4 100 (by norm_num) (by norm_num [pC4, pyOr])
    (by norm_num [pC4, pyOr]) (by norm_num [pC4, pyOr, asFloat])

/-! ### IRR claims -/

lemma irrLocal_no_sign_change (cfs : List ℚ) (hne : cfs ≠ [])
    (htiny : cfs.all (fun cf => |cf| < 1 / 1000000000000) = false)
    (hsign : (0 < npv irrLo cfs ∧ 0 < npv irrHi cfs) ∨
      (npv irrLo cfs < 0 ∧ npv irrHi cfs < 0)) :
    irrLocal cfs = none := by
  have hflo : ¬(npv irrLo cfs = 0) := by
    rcases hsign with ⟨h, _⟩ | ⟨h, _⟩
    · exact ne_of_gt h
    · exact ne_of_lt h
  have hfhi : ¬(npv irrHi cfs = 0) := by
    rcases hsign with ⟨_, h⟩ | ⟨_, h⟩
    · exact ne_of_gt h
    · exact ne_of_lt h
  simp only [irrLocal, htiny]
  rw [if_neg hne, if_neg (by simp), if_neg hflo, if_neg hfhi, if_pos hsign]

/-- C6 (amended): for any non-empty cash-flow series that is not uniformly
below the `1e-12` degeneracy threshold, if the NPV has the same strict sign
at both ends of the bracketing domain then `_irr_local` returns `none`
(hence in particular not `0`), and it raises nothing (it is total).  Series
with every entry below `1e-12` in magnitude are the exception forced by the
code's all-tiny check, which returns `0`. -/
theorem c6_irr_unbracketed (cfs : List ℚ) (hne : cfs ≠ [])
    (htiny : cfs.all (fun cf => |cf| < 1 / 1000000000000) = false)
    (hsign : (0 < npv irrLo cfs ∧ 0 < npv irrHi cfs) ∨
      (npv irrLo cfs < 0 ∧ npv irrHi cfs < 0)) :
    irrLocal cfs = none :=
  irrLocal_no_sign_change cfs hne htiny hsign

/-- C6 counterexample: `[1e-13]` is a strictly positive all-inflow series
with positive NPV at both bracket ends, yet `_irr_local` returns `0` (the
all-tiny degenerate branch), not the no-solution value. -/
theorem c6_counterexample :
    irrLocal [1 / 10000000000000] = some 0 ∧
      0 < npv irrLo [1 / 10000000000000] ∧
      0 < npv irrHi [1 / 10000000000000] ∧
      (0 : ℚ) < 1 / 10000000000000 := by
  refine ⟨?_, by norm_num [npv, irrLo, List.enum], by norm_num [npv, irrHi, List.enum],
    by norm_num⟩
  rw [irrLocal, if_neg (by simp), if_pos]
  simp only [List.all_cons, List.all_nil, Bool.and_true, decide_eq_true_eq]
  rw [abs_lt]
  constructor <;> norm_num

/-- C6 witness: the all-inflow series `[1, 1]` yields `none`. -/
theorem c6_witness : irrLocal [1, 1] = none :=
  c6_irr_unbracketed [1, 1] (by simp)
    (by simp only [List.all_cons, List.all_nil, Bool.and_true, decide_eq_true_eq,
          abs_lt]
        norm_num)
    (Or.inl ⟨by norm_num [npv, irrLo, List.enum], by norm_num [npv, irrHi, List.enum]⟩)

/-! ### DSRA claims -/

lemma dsraAux_sum : ∀ (l : List ℚ) (b : ℚ), (dsraAux l b).1.sum = b - (dsraAux l b).2
  | [], b => by simp [dsraAux]
  | need :: rest, b => by
    have ih1 := dsraAux_sum rest b
    have ih2 := dsraAux_sum rest (b + (need - b))
    simp only [dsraAux]
    split_ifs with h1 h2
    · simp only [List.sum_cons]
      rw [ih1]
      ring
    · simp only [List.sum_cons]
      rw [ih2]
      ring
    · simp only [List.sum_cons]
      rw [ih2]
      ring

lemma dsraAux_final : ∀ (l : List ℚ) (b : ℚ), l.getLast? = some 0 →
    |(dsraAux l b).2| < 1 / 1000000000
  | [], b, hlast => by simp at hlast
  | [need], b, hlast => by
    have hneed : need = 0 := by simpa using hlast
    subst hneed
    simp only [dsraAux]
    split_ifs with h1 h2
    · simpa using h1
    · simp only [dsraAux]
      rw [show b + (0 - b) = 0 by ring]
      norm_num
    · simp only [dsraAux]
      rw [show b + (0 - b) = 0 by ring]
      norm_num
  | need :: next :: rest, b, hlast => by
    have hlast' : (next :: rest).getLast? = some 0 := by
      rwa [List.getLast?_cons_cons] at hlast
    rw [dsraAux]
    split_ifs with h1 h2
    · exact dsraAux_final (next :: rest) b hlast'
    · exact dsraAux_final (next :: rest) (b + (need - b)) hlast'
    · exact dsraAux_final (next :: rest) (b + (need - b)) hlast'

lemma take_singleton_zero_sum : ∀ m : ℕ, (List.take m [(0:ℚ)]).sum = 0
  | 0 => rfl
  | m + 1 => by simp

lemma dsraFlows_sum_small (m : ℕ) (ds : List ℚ) (hne : ds ≠ [])
    (hlast : ds.getLast? = some 0) : |(dsraFlows m ds).sum| < 1 / 1000000000 := by
  obtain ⟨l', a, rfl⟩ : ∃ l' a, ds = l' ++ [a] := by
    rcases List.eq_nil_or_concat ds with h | ⟨l', a, h⟩
    · exact absurd h hne
    · exact ⟨l', a, by rw [h, List.concat_eq_append]⟩
  have ha : a = 0 := by simpa [List.getLast?_concat] using hlast
  subst ha
  simp only [dsraFlows]
  rw [dsraAux_sum, zero_sub, abs_neg]
  apply dsraAux_final
  have hlen : (l' ++ [(0:ℚ)]).length = l'.length + 1 := by simp
  rw [hlen, List.range_succ, List.map_append, List.map_cons, List.map_nil,
    List.getLast?_concat]
  have hmap : (l' ++ [(0:ℚ)]).map (fun s => s / 12) =
      l'.map (fun s => s / 12) ++ [(0:ℚ)] := by
    rw [List.map_append]
    norm_num
  have hdrop : ((l' ++ [(0:ℚ)]).map (fun s => s / 12)).drop l'.length = [(0:ℚ)] := by
    rw [hmap, show l'.length = (l'.map (fun s => s / 12)).length by simp,
      List.drop_left]
  rw [hdrop, take_singleton_zero_sum]

/-- C9 (amended): when total debt service is zero in the final schedule
year, the sequential DSRA funding/release flows sum to within `1e-9` of
zero — not exactly zero, because the loop's `1e-9` dead-band can strand a
sub-tolerance residual in the reserve. -/
theorem c9_dsra_nets_to_tolerance (m : ℕ) (ds : List ℚ) (hne : ds ≠ [])
    (hlast : ds.getLast? = some 0) : |(dsraFlows m ds).sum| < 1 / 1000000000 :=
  dsraFlows_sum_small m ds hne hlast

/-- C9 witness: a two-year service series `[12, 0]` with a one-month
reserve window nets out within tolerance (here exactly). -/
theorem c9_witness : |(dsraFlows 1 [12, 0]).sum| < 1 / 1000000000 :=
  c9_dsra_nets_to_tolerance 1 [12, 0] (by simp) rfl

/-- C9 counterexample: with a two-month window over the service series
`[12e-9, 6e-9, 0]` (zero service in the final year), the `1e-9` dead-band
strands `5e-10` in the reserve, so the flows sum to `-5e-10 ≠ 0`: the
claim's exact-zero netting fails. -/
theorem c9_counterexample :
    (dsraFlows 2 [12/1000000000, 6/1000000000, 0]).sum ≠ 0 ∧
      ([12/1000000000, 6/1000000000, (0:ℚ)]).getLast? = some 0 := by
  refine ⟨?_, rfl⟩
  have htargets : dsraFlows 2 [12/1000000000, 6/1000000000, 0] =
      (dsraAux [3/2000000000, 1/2000000000, 0] 0).1 := by
    simp only [dsraFlows]
    norm_num [List.range_succ]
  have s3 : dsraAux [(0:ℚ)] (1/2000000000) = ([0], 1/2000000000) := by
    rw [dsraAux, if_pos (by norm_num [abs_lt]), dsraAux]
  have s2 : dsraAux [(1/2000000000 : ℚ), 0] (3/2000000000) =
      (1/1000000000 :: (0 : ℚ) :: [], 1/2000000000) := by
    rw [dsraAux, if_neg (by norm_num [abs_lt]), if_neg (by norm_num)]
    rw [show (3/2000000000 : ℚ) + (1/2000000000 - 3/2000000000) = 1/2000000000 by
      norm_num]
    rw [s3]
    norm_num
  have s1 : dsraAux [(3/2000000000 : ℚ), 1/2000000000, 0] 0 =
      (-(3/2000000000) :: 1/1000000000 :: (0 : ℚ) :: [], 1/2000000000) := by
    rw [dsraAux, if_neg (by norm_num [abs_lt]), if_pos (by norm_num)]
    rw [show (0 : ℚ) + (3/2000000000 - 0) = 3/2000000000 by norm_num]
    rw [s2]
    norm_num
  rw [htargets, s1]
  norm_num

/-! ### Sculpted DSCR claims -/

/-- `target_service = max(0, cf / dscr_target)` in sculpted amortizing
year `k` (year index `io_years + k`). -/
def sculptTargetService (trs : TrMap Tranche) (cfads : List ℚ) (t : ℚ) (k : ℕ) : ℚ :=
  max 0 (cfGet cfads ((ioYears trs).toNat + k) / t)

/-- `total_interest` in sculpted amortizing year `k`. -/
def sculptInterestTotal (trs : TrMap Tranche) (cfads : List ℚ) (t : ℚ) (k : ℕ) : ℚ :=
  (sculptStates trs cfads t k).lkr * trs.lkr.rate +
    (sculptStates trs cfads t k).usd * trs.usd.rate +
    (sculptStates trs cfads t k).dfi * trs.dfi.rate

/-- `principal_total = max(0, target_service - total_interest)` in
sculpted amortizing year `k`. -/
def sculptPrincipalTotal (trs : TrMap Tranche) (cfads : List ℚ) (t : ℚ) (k : ℕ) : ℚ :=
  max 0 (sculptTargetService trs cfads t k - sculptInterestTotal trs cfads t k)

/-- The aggregated `interest + principal` debt service of the sculpted
schedule in year `y`, exactly as the aggregation loop of
`apply_debt_layer` sums the per-tranche rows. -/
def sculptServiceAt (trs : TrMap Tranche) (amort : ℤ) (cfads : List ℚ) (t : ℚ)
    (y : ℕ) : ℚ :=
  ((sculptedSchedule trs amort cfads t).lkr.getD y zeroRow).interest +
    ((sculptedSchedule trs amort cfads t).usd.getD y zeroRow).interest +
    ((sculptedSchedule trs amort cfads t).dfi.getD y zeroRow).interest +
    (((sculptedSchedule trs amort cfads t).lkr.getD y zeroRow).principal +
      ((sculptedSchedule trs amort cfads t).usd.getD y zeroRow).principal +
      ((sculptedSchedule trs amort cfads t).dfi.getD y zeroRow).principal)

lemma sculptAdvance_shift (trs : TrMap Tranche) (cfads : List ℚ) (t : ℚ) :
    ∀ (k yi : ℕ) (obals : TrMap ℚ),
      sculptAdvance trs cfads t (yi + 1)
          ((sculptYear trs obals (cfGet cfads yi) t).2) k =
        sculptAdvance trs cfads t yi obals (k + 1)
  | 0, yi, obals => rfl
  | k + 1, yi, obals => by
    show (sculptYear trs (sculptAdvance trs cfads t (yi + 1)
        ((sculptYear trs obals (cfGet cfads yi) t).2) k)
        (cfGet cfads (yi + 1 + k)) t).2 = _
    rw [sculptAdvance_shift trs cfads t k yi obals,
      show yi + 1 + k = yi + (k + 1) by omega]
    rfl

lemma sculptLoop_length (trs : TrMap Tranche) (cfads : List ℚ) (t : ℚ) :
    ∀ (m yi : ℕ) (obals : TrMap ℚ), (sculptLoop trs cfads t m yi obals).length = m
  | 0, _, _ => rfl
  | m + 1, yi, obals => by
    simp only [sculptLoop, List.length_cons]
    rw [sculptLoop_length trs cfads t m (yi + 1) _]

lemma sculptLoop_getD (trs : TrMap Tranche) (cfads : List ℚ) (t : ℚ) (d : TrMap DebtRow) :
    ∀ (m k yi : ℕ) (obals : TrMap ℚ), k < m →
      (sculptLoop trs cfads t m yi obals).getD k d =
        (sculptYear trs (sculptAdvance trs cfads t yi obals k)
          (cfGet cfads (yi + k)) t).1
  | 0, k, _, _, hk => absurd hk (Nat.not_lt_zero k)
  | m + 1, 0, yi, obals, _ => by
    simp only [sculptLoop, List.getD_cons_zero]
    rfl
  | m + 1, k + 1, yi, obals, hk => by
    simp only [sculptLoop, List.getD_cons_succ]
    rw [sculptLoop_getD trs cfads t d m k (yi + 1) _ (by omega)]
    rw [sculptAdvance_shift trs cfads t k yi obals,
      show yi + 1 + k = yi + (k + 1) by omega]

lemma sculptedByYear_getD (trs : TrMap Tranche) (amort : ℤ) (cfads : List ℚ) (t : ℚ)
    (d : TrMap DebtRow) (k : ℕ) (hk : k < amort.toNat) :
    (sculptedByYear trs amort cfads t).getD ((ioYears trs).toNat + k) d =
      (sculptYear trs (sculptStates trs cfads t k)
        (cfGet cfads ((ioYears trs).toNat + k)) t).1 := by
  simp only [sculptedByYear]
  rw [List.getD_append_right _ _ d ((ioYears trs).toNat + k)
    (by simp [List.length_replicate])]
  simp only [List.length_replicate]
  rw [show (ioYears trs).toNat + k - (ioYears trs).toNat = k by omega]
  exact sculptLoop_getD trs cfads t d amort.toNat k (ioYears trs).toNat
    (startBals trs) hk

lemma getD_map_of_lt {α β : Type} (f : α → β) (l : List α) (y : ℕ) (hy : y < l.length)
    (d : β) (d' : α) : (l.map f).getD y d = f (l.getD y d') := by
  rw [List.getD_eq_getElem?_getD, List.getD_eq_getElem?_getD, List.getElem?_map,
    List.getElem?_eq_getElem hy]
  rfl

lemma sculptedSchedule_getD (trs : TrMap Tranche) (amort : ℤ) (cfads : List ℚ)
    (t : ℚ) (k : ℕ) (hk : k < amort.toNat) :
    (sculptedSchedule trs amort cfads t).lkr.getD ((ioYears trs).toNat + k) zeroRow =
        (sculptYear trs (sculptStates trs cfads t k)
          (cfGet cfads ((ioYears trs).toNat + k)) t).1.lkr ∧
      (sculptedSchedule trs amort cfads t).usd.getD ((ioYears trs).toNat + k) zeroRow =
        (sculptYear trs (sculptStates trs cfads t k)
          (cfGet cfads ((ioYears trs).toNat + k)) t).1.usd ∧
      (sculptedSchedule trs amort cfads t).dfi.getD ((ioYears trs).toNat + k) zeroRow =
        (sculptYear trs (sculptStates trs cfads t k)
          (cfGet cfads ((ioYears trs).toNat + k)) t).1.dfi := by
  have hlen : (sculptedByYear trs amort cfads t).length =
      (ioYears trs).toNat + amort.toNat := by
    simp [sculptedByYear, sculptLoop_length]
  have hy : (ioYears trs).toNat + k < (sculptedByYear trs amort cfads t).length := by
    rw [hlen]
    omega
  refine ⟨?_, ?_, ?_⟩ <;>
    · simp only [sculptedSchedule]
      rw [getD_map_of_lt _ _ _ hy zeroRow ⟨zeroRow, zeroRow, zeroRow⟩,
        sculptedByYear_getD trs amort cfads t ⟨zeroRow, zeroRow, zeroRow⟩ k hk]

/-- C2 (amended): in a sculpted amortizing year with positive total
outstanding balance, where total interest does not exceed the target
service, no tranche's pro-rata allocation is capped by its balance and the
year's total debt service is positive, the DSCR equals `dscr_target`
exactly.  (Interest-only years, capped years and years where interest
alone exceeds the target are the exceptions.) -/
theorem c2_sculpted_dscr_hits_target (trs : TrMap Tranche) (amort : ℤ)
    (cfads : List ℚ) (t : ℚ) (k : ℕ) (hk : k < amort.toNat)
    (hq : 0 < (sculptStates trs cfads t k).qsum)
    (hit : sculptInterestTotal trs cfads t k ≤ sculptTargetService trs cfads t k)
    (hcl : sculptPrincipalTotal trs cfads t k * ((sculptStates trs cfads t k).lkr /
        (sculptStates trs cfads t k).qsum) ≤ (sculptStates trs cfads t k).lkr)
    (hcu : sculptPrincipalTotal trs cfads t k * ((sculptStates trs cfads t k).usd /
        (sculptStates trs cfads t k).qsum) ≤ (sculptStates trs cfads t k).usd)
    (hcd : sculptPrincipalTotal trs cfads t k * ((sculptStates trs cfads t k).dfi /
        (sculptStates trs cfads t k).qsum) ≤ (sculptStates trs cfads t k).dfi)
    (hsvc : 0 < sculptServiceAt trs amort cfads t ((ioYears trs).toNat + k)) :
    cfGet cfads ((ioYears trs).toNat + k) /
      sculptServiceAt trs amort cfads t ((ioYears trs).toNat + k) = t := by
  obtain ⟨el, eu, ed⟩ := sculptedSchedule_getD trs amort cfads t k hk
  have hq' : 0 < (sculptStates trs cfads t k).lkr + (sculptStates trs cfads t k).usd +
      (sculptStates trs cfads t k).dfi := by
    simpa [TrMap.qsum] using hq
  have hq0 : ¬((sculptStates trs cfads t k).lkr + (sculptStates trs cfads t k).usd +
      (sculptStates trs cfads t k).dfi = 0) := ne_of_gt hq'
  have hsvc_eq : sculptServiceAt trs amort cfads t ((ioYears trs).toNat + k) =
      sculptTargetService trs cfads t k := by
    simp only [sculptPrincipalTotal, sculptTargetService, sculptInterestTotal,
      TrMap.qsum] at hcl hcu hcd hit
    rw [sculptServiceAt, el, eu, ed]
    simp only [sculptYear, sculptTranche, pyOr, TrMap.qsum, sculptTargetService]
    simp only [if_neg hq0, if_pos hq']
    rw [min_eq_right hcl, min_eq_right hcu, min_eq_right hcd]
    rw [max_eq_right (sub_nonneg.mpr hit)]
    field_simp
    ring
  rw [hsvc_eq] at hsvc ⊢
  have hpos : 0 < cfGet cfads ((ioYears trs).toNat + k) / t := by
    rcases le_or_lt (cfGet cfads ((ioYears trs).toNat + k) / t) 0 with h | h
    · rw [sculptTargetService, max_eq_left (by linarith)] at hsvc
      exact absurd hsvc (lt_irrefl 0)
    · exact h
  have hts : sculptTargetService trs cfads t k =
      cfGet cfads ((ioYears trs).toNat + k) / t :=
    max_eq_right (le_of_lt hpos)
  rw [hts]
  have ht0 : t ≠ 0 := by
    intro h
    rw [h, div_zero] at hpos
    exact absurd hpos (lt_irrefl 0)
  have hcf0 : cfGet cfads ((ioYears trs).toNat + k) ≠ 0 := by
    intro h
    rw [h, zero_div] at hpos
    exact absurd hpos (lt_irrefl 0)
  field_simp

/-- One 10% tranche of 100 (no grace), the other tranches empty. -/
def trsC2w : TrMap Tranche :=
  ⟨⟨"LKR", 1/10, 100, 0⟩, ⟨"USD", 0, 0, 0⟩, ⟨"DFI", 0, 0, 0⟩⟩

/-- C2 witness: with CFADS `60` and target `1.5`, the sculpted year's DSCR
is exactly the target. -/
theorem c2_witness :
    cfGet [60] ((ioYears trsC2w).toNat + 0) /
      sculptServiceAt trsC2w 1 [60] (3/2) ((ioYears trsC2w).toNat + 0) = 3/2 :=
  c2_sculpted_dscr_hits_target trsC2w 1 [60] (3/2) 0 (by decide)
    (by norm_num [sculptStates, sculptAdvance, startBals, trsC2w, TrMap.qsum])
    (by norm_num [sculptInterestTotal, sculptTargetService, sculptStates,
      sculptAdvance, startBals, trsC2w, cfGet, ioYears])
    (by norm_num [sculptPrincipalTotal, sculptInterestTotal, sculptTargetService,
      sculptStates, sculptAdvance, startBals, trsC2w, cfGet, ioYears, TrMap.qsum])
    (by norm_num [sculptPrincipalTotal, sculptInterestTotal, sculptTargetService,
      sculptStates, sculptAdvance, startBals, trsC2w, cfGet, ioYears, TrMap.qsum])
    (by norm_num [sculptPrincipalTotal, sculptInterestTotal, sculptTargetService,
      sculptStates, sculptAdvance, startBals, trsC2w, cfGet, ioYears, TrMap.qsum])
    (by norm_num [sculptServiceAt, sculptedSchedule, sculptedByYear, sculptLoop,
      sculptYear, sculptTranche, ioYears, startBals, cfGet, pyOr, TrMap.qsum,
      TrMap.map, trsC2w, List.getD_cons_zero, zeroRow])

/-- Three 50% tranches of 100 each (no grace). -/
def trsC2x : TrMap Tranche :=
  ⟨⟨"LKR", 1/2, 100, 0⟩, ⟨"USD", 1/2, 100, 0⟩, ⟨"DFI", 1/2, 100, 0⟩⟩

/-- C2 counterexample: with CFADS `10` and target `2`, accrued interest
(150) alone exceeds the target service (5), so principal is floored at 0,
no tranche's allocation is capped by its balance (each allocation is
strictly below it), total debt service is positive — and the DSCR is
`10/150`, not the target `2`. -/
theorem c2_counterexample :
    0 < sculptServiceAt trsC2x 1 [10] 2 0 ∧
    ((sculptedSchedule trsC2x 1 [10] 2).lkr.getD 0 zeroRow).principal <
        (sculptStates trsC2x [10] 2 0).lkr ∧
    ((sculptedSchedule trsC2x 1 [10] 2).usd.getD 0 zeroRow).principal <
        (sculptStates trsC2x [10] 2 0).usd ∧
    ((sculptedSchedule trsC2x 1 [10] 2).dfi.getD 0 zeroRow).principal <
        (sculptStates trsC2x [10] 2 0).dfi ∧
    cfGet [10] 0 / sculptServiceAt trsC2x 1 [10] 2 0 ≠ 2 := by
  norm_num [sculptServiceAt, sculptedSchedule, sculptedByYear, sculptLoop,
    sculptYear, sculptTranche, sculptStates, sculptAdvance, ioYears, startBals,
    cfGet, pyOr, TrMap.qsum, TrMap.map, trsC2x, List.getD_cons_zero, zeroRow]

/-! ### Balloon accounting (C5) -/

lemma sum_map_add {α : Type} (l : List α) (f g : α → ℚ) :
    (l.map (fun x => f x + g x)).sum = (l.map f).sum + (l.map g).sum := by
  induction l with
  | nil => simp
  | cons a l ih =>
    simp only [List.map_cons, List.sum_cons, ih]
    ring

lemma sum_range_getD (f : DebtRow → ℚ) (hf : f zeroRow = 0) :
    ∀ (l : List DebtRow) (T : ℕ), l.length ≤ T →
      ((List.range T).map (fun y => f (l.getD y zeroRow))).sum = (l.map f).sum := by
  intro l
  induction l with
  | nil =>
    intro T _
    have hz : ∀ y : ℕ, f (([] : List DebtRow).getD y zeroRow) = 0 := fun y => by
      simp [hf]
    simp only [hz, List.map_nil, List.sum_nil]
    induction (List.range T) with
    | nil => simp
    | cons b l ihl => simp [ihl]
  | cons a l ih =>
    intro T hT
    obtain ⟨T', rfl⟩ : ∃ T', T = T' + 1 := ⟨T - 1, by
      have := List.length_cons a l ▸ hT
      omega⟩
    rw [List.range_succ_eq_map, List.map_cons, List.sum_cons, List.map_map]
    have hcomp : ((fun y => f ((a :: l).getD y zeroRow)) ∘ Nat.succ) =
        (fun y => f (l.getD y zeroRow)) := by
      funext y
      simp [List.getD_cons_succ]
    rw [hcomp, ih T' (by
      have := List.length_cons a l ▸ hT
      omega)]
    simp

lemma schLength_le (p : Params) (rows : List AnnualRow) :
    (schMapOf p rows).lkr.length ≤ (totalYearsOf p rows).toNat ∧
      (schMapOf p rows).usd.length ≤ (totalYearsOf p rows).toNat ∧
      (schMapOf p rows).dfi.length ≤ (totalYearsOf p rows).toNat := by
  have h1 : (maxLenOf p rows : ℤ) ≤ totalYearsOf p rows := le_max_right _ _
  have h2 : maxLenOf p rows ≤ (totalYearsOf p rows).toNat := by omega
  simp only [maxLenOf] at h2
  omega

lemma totalPrincipalPaid_eq (p : Params) (rows : List AnnualRow) :
    totalPrincipalPaidOf p rows =
      ((schMapOf p rows).lkr.map DebtRow.principal).sum +
        ((schMapOf p rows).usd.map DebtRow.principal).sum +
        ((schMapOf p rows).dfi.map DebtRow.principal).sum := by
  obtain ⟨h1, h2, h3⟩ := schLength_le p rows
  rw [totalPrincipalPaidOf, principalSeriesFull, sum_map_add, sum_map_add]
  rw [sum_range_getD DebtRow.principal rfl _ _ h1,
    sum_range_getD DebtRow.principal rfl _ _ h2,
    sum_range_getD DebtRow.principal rfl _ _ h3]

lemma annuitySchedule_principal_le (tr : Tranche) (n : ℤ) (hr : 0 ≤ tr.rate)
    (hpv : 0 ≤ tr.principal) :
    ((annuitySchedule tr n).map DebtRow.principal).sum ≤ tr.principal := by
  by_cases hn : 1 ≤ n
  · rw [annuitySchedule_principal_sum tr n hr hpv hn]
  · simp only [annuitySchedule]
    rw [if_neg (by omega), List.map_replicate]
    simp [hpv]

lemma sculptTranche_bal_eq (pt tb bal i : ℚ) :
    (sculptTranche pt tb bal i).2 = bal - (sculptTranche pt tb bal i).1.principal := by
  simp only [sculptTranche]
  exact max_eq_right (sub_nonneg.mpr (min_le_left _ _))

lemma sculptYear_bal_eq (trs : TrMap Tranche) (obals : TrMap ℚ) (cf t : ℚ) :
    (sculptYear trs obals cf t).2.lkr =
        obals.lkr - (sculptYear trs obals cf t).1.lkr.principal ∧
      (sculptYear trs obals cf t).2.usd =
        obals.usd - (sculptYear trs obals cf t).1.usd.principal ∧
      (sculptYear trs obals cf t).2.dfi =
        obals.dfi - (sculptYear trs obals cf t).1.dfi.principal := by
  simp only [sculptYear]
  exact ⟨sculptTranche_bal_eq _ _ _ _, sculptTranche_bal_eq _ _ _ _,
    sculptTranche_bal_eq _ _ _ _⟩

lemma sculptLoop_principal_le (trs : TrMap Tranche) (cfads : List ℚ) (t : ℚ) :
    ∀ (m yi : ℕ) (obals : TrMap ℚ), 0 ≤ obals.lkr → 0 ≤ obals.usd → 0 ≤ obals.dfi →
      ((sculptLoop trs cfads t m yi obals).map (fun r => r.lkr.principal)).sum ≤
          obals.lkr ∧
        ((sculptLoop trs cfads t m yi obals).map (fun r => r.usd.principal)).sum ≤
          obals.usd ∧
        ((sculptLoop trs cfads t m yi obals).map (fun r => r.dfi.principal)).sum ≤
          obals.dfi
  | 0, yi, obals, hl, hu, hd => by
    simp only [sculptLoop, List.map_nil, List.sum_nil]
    exact ⟨hl, hu, hd⟩
  | m + 1, yi, obals, hl, hu, hd => by
    have hinv := sculptYear_inv trs obals (cfGet cfads yi) t hl hu hd
    have hbe := sculptYear_bal_eq trs obals (cfGet cfads yi) t
    have ih := sculptLoop_principal_le trs cfads t m (yi + 1)
      (sculptYear trs obals (cfGet cfads yi) t).2 hinv.1.1 hinv.2.1.1 hinv.2.2.1
    simp only [sculptLoop, List.map_cons, List.sum_cons]
    exact ⟨by linarith [ih.1, hbe.1], by linarith [ih.2.1, hbe.2.1],
      by linarith [ih.2.2, hbe.2.2]⟩

lemma sculptedSchedule_principal_le (trs : TrMap Tranche) (amort : ℤ)
    (cfads : List ℚ) (t : ℚ) (hl : 0 ≤ trs.lkr.principal)
    (hu : 0 ≤ trs.usd.principal) (hd : 0 ≤ trs.dfi.principal) :
    ((sculptedSchedule trs amort cfads t).lkr.map DebtRow.principal).sum ≤
        trs.lkr.principal ∧
      ((sculptedSchedule trs amort cfads t).usd.map DebtRow.principal).sum ≤
        trs.usd.principal ∧
      ((sculptedSchedule trs amort cfads t).dfi.map DebtRow.principal).sum ≤
        trs.dfi.principal := by
  have hloop := sculptLoop_principal_le trs cfads t amort.toNat (ioYears trs).toNat
    (startBals trs) hl hu hd
  simp only [sculptedSchedule, sculptedByYear, List.map_map, List.map_append,
    List.sum_append, List.map_replicate]
  simp only [Function.comp, TrMap.map]
  refine ⟨?_, ?_, ?_⟩
  · have hio : (List.replicate (ioYears trs).toNat
        (DebtRow.principal (DebtRow.mk (trs.lkr.principal * trs.lkr.rate) 0
          (trs.lkr.principal * trs.lkr.rate)))).sum = 0 := by simp
    rw [hio, zero_add]
    exact hloop.1
  · have hio : (List.replicate (ioYears trs).toNat
        (DebtRow.principal (DebtRow.mk (trs.usd.principal * trs.usd.rate) 0
          (trs.usd.principal * trs.usd.rate)))).sum = 0 := by simp
    rw [hio, zero_add]
    exact hloop.2.1
  · have hio : (List.replicate (ioYears trs).toNat
        (DebtRow.principal (DebtRow.mk (trs.dfi.principal * trs.dfi.rate) 0
          (trs.dfi.principal * trs.dfi.rate)))).sum = 0 := by simp
    rw [hio, zero_add]
    exact hloop.2.2

lemma totalPrincipalPaid_le (p : Params) (rows : List AnnualRow)
    (hdt : 0 ≤ debtTotalOf p)
    (hc1 : 0 ≤ pyOr p.mix_lkr_max 0) (hc2 : 0 ≤ pyOr p.mix_dfi_max 0)
    (hrl : 0 ≤ (trMapOf p).lkr.rate) (hru : 0 ≤ (trMapOf p).usd.rate)
    (hrd : 0 ≤ (trMapOf p).dfi.rate) :
    totalPrincipalPaidOf p rows ≤ debtTotalOf p := by
  obtain ⟨hpl, hpu, hpd⟩ := (solveMix_props p (debtTotalOf p) hdt hc1 hc2).1
  have hsum := (solveMix_props p (debtTotalOf p) hdt hc1 hc2).2.1
  rw [totalPrincipalPaid_eq]
  by_cases hs : (pyStartswith (amortizationOf p) "sculp" &&
      qTruthy (dscrTargetOf p)) = true
  · have hmap : schMapOf p rows = sculptedSchedule (trMapOf p) (amortYearsOf p)
        (cfadsOf p rows) ((dscrTargetOf p).getD 0) := by
      rw [schMapOf, if_pos hs]
    obtain ⟨b1, b2, b3⟩ := sculptedSchedule_principal_le (trMapOf p)
      (amortYearsOf p) (cfadsOf p rows) ((dscrTargetOf p).getD 0) hpl hpu hpd
    rw [hmap]
    calc ((sculptedSchedule (trMapOf p) (amortYearsOf p) (cfadsOf p rows)
          ((dscrTargetOf p).getD 0)).lkr.map DebtRow.principal).sum +
        ((sculptedSchedule (trMapOf p) (amortYearsOf p) (cfadsOf p rows)
          ((dscrTargetOf p).getD 0)).usd.map DebtRow.principal).sum +
        ((sculptedSchedule (trMapOf p) (amortYearsOf p) (cfadsOf p rows)
          ((dscrTargetOf p).getD 0)).dfi.map DebtRow.principal).sum ≤
        (trMapOf p).lkr.principal + (trMapOf p).usd.principal +
          (trMapOf p).dfi.principal := by linarith
      _ = debtTotalOf p := hsum
  · have hmap : schMapOf p rows = (trMapOf p).map
        (fun tr => annuitySchedule tr (amortYearsOf p)) := by
      rw [schMapOf, if_neg (by simpa using hs)]
    rw [hmap]
    simp only [TrMap.map]
    have b1 := annuitySchedule_principal_le (trMapOf p).lkr (amortYearsOf p) hrl hpl
    have b2 := annuitySchedule_principal_le (trMapOf p).usd (amortYearsOf p) hru hpu
    have b3 := annuitySchedule_principal_le (trMapOf p).dfi (amortYearsOf p) hrd hpd
    calc ((annuitySchedule (trMapOf p).lkr (amortYearsOf p)).map
          DebtRow.principal).sum +
        ((annuitySchedule (trMapOf p).usd (amortYearsOf p)).map
          DebtRow.principal).sum +
        ((annuitySchedule (trMapOf p).dfi (amortYearsOf p)).map
          DebtRow.principal).sum ≤
        (trMapOf p).lkr.principal + (trMapOf p).usd.principal +
          (trMapOf p).dfi.principal := by linarith
      _ = debtTotalOf p := hsum

/-- C5: with debt applied, non-negative cap fractions and non-negative
tranche rates, `balloon_remaining` equals total debt principal minus all
principal repaid over the full (untruncated) schedule, and it is
non-negative (the `max` clamp never needs to bite because repayment never
exceeds the principal). -/
theorem c5_balloon_accounting (p : Params) (rows : List AnnualRow)
    (hd : debtApplied p = true) (hdt : 0 ≤ debtTotalOf p)
    (hc1 : 0 ≤ pyOr p.mix_lkr_max 0) (hc2 : 0 ≤ pyOr p.mix_dfi_max 0)
    (hrl : 0 ≤ (trMapOf p).lkr.rate) (hru : 0 ≤ (trMapOf p).usd.rate)
    (hrd : 0 ≤ (trMapOf p).dfi.rate) :
    (applyDebtLayer p rows).balloon_remaining =
        debtTotalOf p - (principalSeriesFull p rows).sum ∧
      0 ≤ (applyDebtLayer p rows).balloon_remaining := by
  have hpaid := totalPrincipalPaid_le p rows hdt hc1 hc2 hrl hru hrd
  have hb : (applyDebtLayer p rows).balloon_remaining = balloonOf p rows := by
    rw [applyDebtLayer, if_pos hd]
  rw [totalPrincipalPaidOf] at hpaid
  rw [hb, balloonOf, totalPrincipalPaidOf, max_eq_right (by linarith)]
  exact ⟨rfl, by linarith⟩

/-! ### Strategy selection (C1) -/

/-- C1 (amended): when the amortization string starts with `"sculp"` and
`dscr_target` is falsy — absent (missing/null) or a configured `0.0`, the
two cases the source's `and dscr_target` guard treats alike —
`apply_debt_layer` does not abort: the strategy selection silently falls
back to per-tranche level-annuity schedules, and the debt path returns a
normal `debt_applied` result. -/
theorem c1_missing_target_silent_fallback (p : Params) (rows : List AnnualRow)
    (hs : pyStartswith (amortizationOf p) "sculp" = true)
    (ht : qTruthy (dscrTargetOf p) = false) :
    schMapOf p rows =
        (trMapOf p).map (fun tr => annuitySchedule tr (amortYearsOf p)) ∧
      (debtApplied p = true → (applyDebtLayer p rows).mode = "debt_applied") := by
  have hcond : (pyStartswith (amortizationOf p) "sculp" &&
      qTruthy (dscrTargetOf p)) = false := by
    rw [ht, Bool.and_false]
  refine ⟨?_, ?_⟩
  · rw [schMapOf, if_neg (by simp [hcond])]
  · intro hd
    rw [applyDebtLayer, if_pos hd]

/-- A scenario configured `amortization="sculpted"` with no `dscr_target`. -/
def pC1 : Params :=
  { capex_usd_total := some 1000, debt_ratio := some (1/2), tenor_years := some 2,
    amortization := some "sculpted", dscr_target := none,
    usd_nominal := some (1/10), lifetime_years := some 2 }

/-- C1 counterexample: the sculpted-without-target scenario evaluates with
no error to a `debt_applied` result built from annuity schedules — the
claimed fatal failure does not occur. -/
theorem c1_counterexample :
    (applyDebtLayer pC1 []).mode = "debt_applied" ∧
      schMapOf pC1 [] =
        (trMapOf pC1).map (fun tr => annuitySchedule tr (amortYearsOf pC1)) ∧
      pyStartswith (amortizationOf pC1) "sculp" = true ∧
      dscrTargetOf pC1 = none := by
  refine ⟨?_, ?_, by decide, rfl⟩
  · rw [applyDebtLayer, if_pos (by norm_num [debtApplied, qTruthy, pC1])]
  · rw [schMapOf, if_neg (by simp [dscrTargetOf, asFloat, pC1, qTruthy])]

/-- A mixed-case sculpted scenario whose `dscr_target` is a configured
`0.0` (falsy, like absent), for the C1 witness. -/
def pC1w : Params :=
  { capex_usd_total := some 500, debt_ratio := some (4/5), tenor_years := some 3,
    amortization := some "Sculpted", dscr_target := some 0,
    lkr_nominal := some (1/5), lifetime_years := some 4 }

/-- C1 witness: the amended fallback at a concrete scenario with a
configured-zero target. -/
theorem c1_witness :
    schMapOf pC1w [] =
        (trMapOf pC1w).map (fun tr => annuitySchedule tr (amortYearsOf pC1w)) ∧
      (debtApplied pC1w = true → (applyDebtLayer pC1w []).mode = "debt_applied") :=
  c1_missing_target_silent_fallback pC1w [] (by decide)
    (by norm_num [qTruthy, dscrTargetOf, asFloat, pC1w])

/-! ### DSCR definedness and minimum (C7) -/

lemma getD_range_map {α : Type} (f : ℕ → α) (T y : ℕ) (hy : y < T) (d : α) :
    ((List.range T).map f).getD y d = f y := by
  rw [List.getD_eq_getElem?_getD, List.getElem?_map, List.getElem?_range hy]
  rfl

/-- C7: every in-range entry of the full DSCR series is `CFADS[y] / svc`
when the year's total debt service `svc` is positive and the explicit
no-value marker otherwise; `dscr_min` is `none` exactly when no year has
positive debt service, and otherwise is a defined DSCR value that is a
lower bound of all defined DSCR values. -/
theorem c7_dscr_marker_and_min (p : Params) (rows : List AnnualRow) :
    (∀ y, y < (totalYearsOf p rows).toNat →
      (dscrSeriesFull p rows).getD y none =
        (if 0 < (debtServiceFull p rows).getD y 0 then
          some (cfGet (cfadsOf p rows) y / (debtServiceFull p rows).getD y 0)
        else none)) ∧
    (dscrMinOf p rows = none ↔
      ∀ y, y < (totalYearsOf p rows).toNat →
        ¬(0 < (debtServiceFull p rows).getD y 0)) ∧
    (∀ m, dscrMinOf p rows = some m →
      m ∈ (dscrSeriesFull p rows).filterMap id ∧
        ∀ x ∈ (dscrSeriesFull p rows).filterMap id, m ≤ x) := by
  refine ⟨?_, ⟨?_, ?_⟩, ?_⟩
  · intro y hy
    rw [dscrSeriesFull, getD_range_map _ _ _ hy]
  · intro h y hy hsvc
    rw [dscrMinOf, List.min?_eq_none_iff, List.filterMap_eq_nil_iff] at h
    have hmem : (if 0 < (debtServiceFull p rows).getD y 0 then
        some (cfGet (cfadsOf p rows) y / (debtServiceFull p rows).getD y 0)
        else none) ∈ dscrSeriesFull p rows := by
      rw [dscrSeriesFull]
      exact List.mem_map_of_mem _ (List.mem_range.mpr hy)
    have hnone := h _ hmem
    rw [if_pos hsvc] at hnone
    simp at hnone
  · intro h
    rw [dscrMinOf, List.min?_eq_none_iff, List.filterMap_eq_nil_iff]
    intro o ho
    rw [dscrSeriesFull] at ho
    obtain ⟨y, hy, rfl⟩ := List.mem_map.mp ho
    rw [List.mem_range] at hy
    simp only [id_eq]
    rw [if_neg (h y hy)]
  · intro m hm
    have anti : Std.Antisymm (fun x1 x2 : ℚ => x1 ≤ x2) :=
      ⟨fun h1 h2 => le_antisymm h1 h2⟩
    rw [dscrMinOf, List.min?_eq_some_iff (fun x => le_refl x)
      (fun x y => min_choice x y) (fun x y z => le_min_iff)] at hm
    exact hm

/-- A one-year, single-tranche annuity scenario for the C7 witness. -/
def pC7 : Params :=
  { capex_usd_total := some 100, debt_ratio := some (1/2), tenor_years := some 1,
    amortization := some "annuity", lifetime_years := some 1 }

/-- One year of CFADS 10 for the C7 witness. -/
def rowsC7 : List AnnualRow := [{ cfads_usd := some 10 }]

/-- C7 witness: in the concrete scenario, year 0 has positive debt service
and its DSCR entry is the quotient from the claim's formula. -/
theorem c7_witness :
    (dscrSeriesFull pC7 rowsC7).getD 0 none =
      (if 0 < (debtServiceFull pC7 rowsC7).getD 0 0 then
        some (cfGet (cfadsOf pC7 rowsC7) 0 / (debtServiceFull pC7 rowsC7).getD 0 0)
      else none) :=
  (c7_dscr_marker_and_min pC7 rowsC7).1 0 (by
    norm_num [totalYearsOf, lifetimeYears, pyInt, pyOr, asFloat, pC7])

/-! ### Truncation of returned series (C10) -/

lemma pySlice_of_nonneg {α : Type} (n : ℤ) (h : 0 ≤ n) (l : List α) :
    pySlice n l = l.take n.toNat := by
  rw [pySlice, if_pos h]

lemma dsraAux_length : ∀ (l : List ℚ) (b : ℚ), (dsraAux l b).1.length = l.length
  | [], _ => rfl
  | need :: rest, b => by
    rw [dsraAux]
    split_ifs with h1 h2
    · simp only [List.length_cons, dsraAux_length rest b]
    · simp only [List.length_cons, dsraAux_length rest (b + (need - b))]
    · simp only [List.length_cons, dsraAux_length rest (b + (need - b))]

lemma dsraFlows_length (m : ℕ) (ds : List ℚ) : (dsraFlows m ds).length = ds.length := by
  simp [dsraFlows, dsraAux_length]

lemma interestSeriesFull_length (p : Params) (rows : List AnnualRow) :
    (interestSeriesFull p rows).length = (totalYearsOf p rows).toNat := by
  simp [interestSeriesFull]

lemma principalSeriesFull_length (p : Params) (rows : List AnnualRow) :
    (principalSeriesFull p rows).length = (totalYearsOf p rows).toNat := by
  simp [principalSeriesFull]

lemma debtServiceFull_length (p : Params) (rows : List AnnualRow) :
    (debtServiceFull p rows).length = (totalYearsOf p rows).toNat := by
  simp [debtServiceFull, interestSeriesFull_length, principalSeriesFull_length]

lemma dscrSeriesFull_length (p : Params) (rows : List AnnualRow) :
    (dscrSeriesFull p rows).length = (totalYearsOf p rows).toNat := by
  simp [dscrSeriesFull]

lemma dsraCashOf_length (p : Params) (rows : List AnnualRow) :
    (dsraCashOf p rows).length = (totalYearsOf p rows).toNat := by
  rw [dsraCashOf]
  split_ifs with h1 h2
  · simp
  · rw [dsraFlows_length, debtServiceFull_length]
  · simp

lemma feesCashOf_length (p : Params) (rows : List AnnualRow) :
    (feesCashOf p rows).length = (totalYearsOf p rows).toNat := by
  rw [feesCashOf]
  split_ifs with h1
  · simp
  · simp

lemma adjustmentsFull_length (p : Params) (rows : List AnnualRow) :
    (adjustmentsFull p rows).length = (totalYearsOf p rows).toNat := by
  simp [adjustmentsFull]

lemma lifetime_le_totalYears (p : Params) (rows : List AnnualRow)
    (hl : 0 ≤ lifetimeYears p) :
    (lifetimeYears p).toNat ≤ (totalYearsOf p rows).toNat := by
  have h := le_max_left (lifetimeYears p) ((maxLenOf p rows : ℤ))
  rw [totalYearsOf]
  omega

/-- C10: on the debt path (with a non-negative configured lifetime) every
returned per-year series is the `lifetime`-entry prefix of the full
schedule series — exactly `lifetime` entries each — while `dscr_min` and
`balloon_remaining` are computed from the full, untruncated schedule. -/
theorem c10_series_truncated_aggregates_full (p : Params) (rows : List AnnualRow)
    (hd : debtApplied p = true) (hl : 0 ≤ lifetimeYears p) :
    ((applyDebtLayer p rows).interest_series =
        (interestSeriesFull p rows).take (lifetimeYears p).toNat ∧
      (applyDebtLayer p rows).interest_series.length = (lifetimeYears p).toNat) ∧
    ((applyDebtLayer p rows).principal_series =
        (principalSeriesFull p rows).take (lifetimeYears p).toNat ∧
      (applyDebtLayer p rows).principal_series.length = (lifetimeYears p).toNat) ∧
    ((applyDebtLayer p rows).debt_service =
        (debtServiceFull p rows).take (lifetimeYears p).toNat ∧
      (applyDebtLayer p rows).debt_service.length = (lifetimeYears p).toNat) ∧
    ((applyDebtLayer p rows).dscr_series =
        (dscrSeriesFull p rows).take (lifetimeYears p).toNat ∧
      (applyDebtLayer p rows).dscr_series.length = (lifetimeYears p).toNat) ∧
    ((applyDebtLayer p rows).dsra_cashflows =
        (dsraCashOf p rows).take (lifetimeYears p).toNat ∧
      (applyDebtLayer p rows).dsra_cashflows.length = (lifetimeYears p).toNat) ∧
    ((applyDebtLayer p rows).fees_cashflows =
        (feesCashOf p rows).take (lifetimeYears p).toNat ∧
      (applyDebtLayer p rows).fees_cashflows.length = (lifetimeYears p).toNat) ∧
    ((applyDebtLayer p rows).adjustments =
        some ((adjustmentsFull p rows).take (lifetimeYears p).toNat) ∧
      ((adjustmentsFull p rows).take (lifetimeYears p).toNat).length =
        (lifetimeYears p).toNat) ∧
    (applyDebtLayer p rows).dscr_min = dscrMinOf p rows ∧
    (applyDebtLayer p rows).balloon_remaining =
      max 0 (debtTotalOf p - (principalSeriesFull p rows).sum) := by
  have hle := lifetime_le_totalYears p rows hl
  rw [applyDebtLayer, if_pos hd]
  simp only [pySlice_of_nonneg _ hl]
  refine ⟨⟨by trivial, ?_⟩, ⟨by trivial, ?_⟩, ⟨by trivial, ?_⟩, ⟨by trivial, ?_⟩,
    ⟨by trivial, ?_⟩, ⟨by trivial, ?_⟩, ⟨by trivial, ?_⟩, by trivial, by trivial⟩
  · rw [List.length_take, interestSeriesFull_length]
    omega
  · rw [List.length_take, principalSeriesFull_length]
    omega
  · rw [List.length_take, debtServiceFull_length]
    omega
  · rw [List.length_take, dscrSeriesFull_length]
    omega
  · rw [List.length_take, dsraCashOf_length]
    omega
  · rw [List.length_take, feesCashOf_length]
    omega
  · rw [List.length_take, adjustmentsFull_length]
    omega

/-! ### Concrete scenarios for the C5 and C10 witnesses -/

/-- A 50%-levered annuity scenario for the C5 witness. -/
def pC5w : Params :=
  { capex_usd_total := some 1000, debt_ratio := some (1/2), tenor_years := some 2,
    amortization := some "annuity", usd_nominal := some (1/10),
    lifetime_years := some 3 }

/-- C5 witness: the balloon identity at a concrete levered scenario. -/
theorem c5_witness :
    (applyDebtLayer pC5w []).balloon_remaining =
        debtTotalOf pC5w - (principalSeriesFull pC5w []).sum ∧
      0 ≤ (applyDebtLayer pC5w []).balloon_remaining :=
  c5_balloon_accounting pC5w [] (by norm_num [debtApplied, qTruthy, pC5w])
    (by norm_num [debtTotalOf, capexUsd, pC5w])
    (by norm_num [pyOr, pC5w]) (by norm_num [pyOr, pC5w])
    (by norm_num [trMapOf, solveMix, asFloat, pyOr, pC5w, Option.orElse])
    (by norm_num [trMapOf, solveMix, asFloat, pyOr, pC5w, Option.orElse])
    (by norm_num [trMapOf, solveMix, asFloat, pyOr, pC5w, Option.orElse])

/-- A scenario whose 5-year schedule outlives its 2-year reported lifetime,
for the C10 witness. -/
def pC10w : Params :=
  { capex_usd_total := some 100, debt_ratio := some (1/2), tenor_years := some 5,
    amortization := some "annuity", usd_nominal := some 0,
    lifetime_years := some 2 }

/-- C10 witness: truncation and full-schedule aggregates at a concrete
scenario whose schedule is longer than its lifetime. -/
theorem c10_witness :
    ((applyDebtLayer pC10w []).interest_series =
        (interestSeriesFull pC10w []).take (lifetimeYears pC10w).toNat ∧
      (applyDebtLayer pC10w []).interest_series.length =
        (lifetimeYears pC10w).toNat) ∧
    ((applyDebtLayer pC10w []).principal_series =
        (principalSeriesFull pC10w []).take (lifetimeYears pC10w).toNat ∧
      (applyDebtLayer pC10w []).principal_series.length =
        (lifetimeYears pC10w).toNat) ∧
    ((applyDebtLayer pC10w []).debt_service =
        (debtServiceFull pC10w []).take (lifetimeYears pC10w).toNat ∧
      (applyDebtLayer pC10w []).debt_service.length =
        (lifetimeYears pC10w).toNat) ∧
    ((applyDebtLayer pC10w []).dscr_series =
        (dscrSeriesFull pC10w []).take (lifetimeYears pC10w).toNat ∧
      (applyDebtLayer pC10w []).dscr_series.length =
        (lifetimeYears pC10w).toNat) ∧
    ((applyDebtLayer pC10w []).dsra_cashflows =
        (dsraCashOf pC10w []).take (lifetimeYears pC10w).toNat ∧
      (applyDebtLayer pC10w []).dsra_cashflows.length =
        (lifetimeYears pC10w).toNat) ∧
    ((applyDebtLayer pC10w []).fees_cashflows =
        (feesCashOf pC10w []).take (lifetimeYears pC10w).toNat ∧
      (applyDebtLayer pC10w []).fees_cashflows.length =
        (lifetimeYears pC10w).toNat) ∧
    ((applyDebtLayer pC10w []).adjustments =
        some ((adjustmentsFull pC10w []).take (lifetimeYears pC10w).toNat) ∧
      ((adjustmentsFull pC10w []).take (lifetimeYears pC10w).toNat).length =
        (lifetimeYears pC10w).toNat) ∧
    (applyDebtLayer pC10w []).dscr_min = dscrMinOf pC10w [] ∧
    (applyDebtLayer pC10w []).balloon_remaining =
      max 0 (debtTotalOf pC10w - (principalSeriesFull pC10w []).sum) :=
  c10_series_truncated_aggregates_full pC10w []
    (by norm_num [debtApplied, qTruthy, pC10w])
    (by norm_num [lifetimeYears, pyInt, pyOr, asFloat, pC10w, Option.orElse])

end DutchBay
